import Mathlib

set_option maxRecDepth 10000

/-!
Verification development for the TimeSheet web application
(source files `timesheet_webui.py` and `timesheet_webui_autofill.py`).

Modelling conventions (shallow embedding):
* Python strings are Lean `String`s; character-level work is done on
  `String.data : List Char`.
* Python float arithmetic is modelled by exact rational arithmetic (`ℚ`).
  All quantities involved (minute counts divided by 60, break hours,
  2-decimal roundings) are exact decimals/sixtieths, far away from the
  magnitudes where binary floats diverge from rationals.
* `datetime.time` is a validated hour/minute pair, `datetime.date` a
  year/month/day triple with Gregorian calendar rules.
* pandas `DataFrame` grids are lists of a fixed-shape `Row` record whose
  fields are the columns used by the application.
* functions keep the names of the Python functions they embed.
-/

/-! ### Python string primitives -/

/-- Characters removed by Python `str.strip()` with no argument
(the ASCII whitespace characters; unicode whitespace is out of model). -/
def isPySpace (c : Char) : Bool :=
  c == ' ' || c == '\t' || c == '\n' || c == '\r' || c == '\x0b' || c == '\x0c'

/-- Python `str.strip()` on a character list. -/
def pyStrip (l : List Char) : List Char :=
  ((l.dropWhile isPySpace).reverse.dropWhile isPySpace).reverse

def isDigitChar (c : Char) : Bool :=
  '0' ≤ c && c ≤ '9'

/-- Numeric value of a decimal digit string (most significant first). -/
def digitsVal (l : List Char) : Nat :=
  l.foldl (fun a c => 10 * a + (c.toNat - 48)) 0

/-- After an initial digit, Python `int()` accepts further digits with single
underscores strictly between digits. -/
def pyDigitsTail : List Char → Bool
  | [] => true
  | [c] => if c = '_' then false else isDigitChar c
  | c :: c2 :: rest =>
    if c = '_' then isDigitChar c2 && pyDigitsTail rest
    else isDigitChar c && pyDigitsTail (c2 :: rest)

/-- Digit body of Python `int()`: nonempty, leading digit, single underscores
between digits; value ignores the underscores. -/
def pyNatDigits (l : List Char) : Option Nat :=
  match l with
  | [] => none
  | c :: rest =>
    if isDigitChar c && pyDigitsTail rest then
      some (digitsVal ((c :: rest).filter (fun d => d != '_')))
    else none

/-- Python `int(s)` on a string: surrounding whitespace stripped, optional
sign, decimal digits (non-ASCII digits are out of model).  `none` models the
`ValueError` that every caller in the source catches. -/
def pyIntCore : List Char → Option Int
  | [] => none
  | c :: rest =>
    if c = '+' then (pyNatDigits rest).map Int.ofNat
    else if c = '-' then (pyNatDigits rest).map (fun n => -(Int.ofNat n))
    else (pyNatDigits (c :: rest)).map Int.ofNat

def pyInt (l : List Char) : Option Int :=
  pyIntCore (pyStrip l)

/-- Python `s.split(sep)` for a single-character separator. -/
def splitCh (sep : Char) : List Char → List (List Char)
  | [] => [[]]
  | c :: rest =>
    if c == sep then [] :: splitCh sep rest
    else
      match splitCh sep rest with
      | [] => [[c]]
      | p :: ps => (c :: p) :: ps

/-- Python `s.zfill(w)`: left-pad with zeros to width `w`, keeping a leading
sign in front of the padding. -/
def zfill (w : Nat) (l : List Char) : List Char :=
  if w ≤ l.length then l
  else
    match l with
    | '+' :: rest => '+' :: (List.replicate (w - 1 - rest.length) '0' ++ rest)
    | '-' :: rest => '-' :: (List.replicate (w - 1 - rest.length) '0' ++ rest)
    | _ => List.replicate (w - l.length) '0' ++ l

/-- Decimal digits of a natural number, most significant first (fuel-based so
that it reduces in the kernel; `n + 1` fuel always suffices). -/
def natDigitsAux : Nat → Nat → List Char
  | 0, _ => []
  | fuel + 1, n =>
    if n < 10 then [Char.ofNat (48 + n)]
    else natDigitsAux fuel (n / 10) ++ [Char.ofNat (48 + n % 10)]

def natDigits (n : Nat) : List Char := natDigitsAux (n + 1) n

/-- Python format specification `02d` (width 2, zero-padded, sign counts
toward the width). -/
def fmt02 (a : Int) : List Char :=
  if a < 0 then '-' :: natDigits a.natAbs
  else if (natDigits a.toNat).length < 2 then '0' :: natDigits a.toNat
  else natDigits a.toNat

/-! ### Time-of-day parsing (`to_time_obj`, lines 92-105) and lenient
normalization (`hhmm_or_blank`, lines 75-90) of `timesheet_webui_autofill.py`
(identical helpers at lines 56-69 and 38-54 of `timesheet_webui.py`). -/

structure PyTime where
  hour : Int
  minute : Int
deriving DecidableEq

/-- `datetime.time(h, m)`: raises `ValueError` outside the valid ranges;
every caller catches it, so the failure is modelled as `none`. -/
def mkTime (h m : Int) : Option PyTime :=
  if 0 ≤ h ∧ h ≤ 23 ∧ 0 ≤ m ∧ m ≤ 59 then some ⟨h, m⟩ else none

/-- Shared branch structure of `to_time_obj` and of the string branch of
`hhmm_or_blank`: on the stripped text, first the colon form `hh:mm` (a split
giving other than two pieces, or a piece `int()` rejects, fails), else the
3-or-4-digit form zero-filled to 4 and cut as HHMM, else failure.  The two
callers differ only in what they do with the extracted pair. -/
def classifyTime (t : List Char) : Option (Int × Int) :=
  if t.contains ':' then
    match splitCh ':' t with
    | [hh, mm] =>
      match pyInt hh, pyInt mm with
      | some a, some b => some (a, b)
      | _, _ => none
    | _ => none
  else if t.length = 3 ∨ t.length = 4 then
    match pyInt ((zfill 4 t).take 2), pyInt ((zfill 4 t).drop 2) with
    | some a, some b => some (a, b)
    | _, _ => none
  else none

/-- `to_time_obj(s)`: strip; empty or unclassifiable text gives `None`; the
extracted pair goes through the range check of `time(...)`. -/
def to_time_obj (s : String) : Option PyTime :=
  match classifyTime (pyStrip s.data) with
  | some (a, b) => mkTime a b
  | none => none

/-- The formatted string `f"⟨int(hh):02d⟩:⟨int(mm):02d⟩"` built by
`hhmm_or_blank` on success (braces written as angles here). -/
def fmtTime (a b : Int) : List Char := fmt02 a ++ ':' :: fmt02 b

/-- `hhmm_or_blank(t)` on a string argument: empty gives `""`; otherwise the
stripped text is classified and on success re-rendered zero-padded, on
failure returned (stripped) unchanged.  The `datetime.time` instance branch
of the Python function is unreachable in the modelled call sites, where the
grid holds strings. -/
def hhmm_or_blank (t : String) : String :=
  if t = "" then ""
  else
    match classifyTime (pyStrip t.data) with
    | some (a, b) => ⟨fmtTime a b⟩
    | none => ⟨pyStrip t.data⟩

/-! ### Break parsing and duration computation -/

/-- Python `max(a, b)` on rationals (kernel-reducible form). -/
def pyMax (a b : ℚ) : ℚ := if a ≤ b then b else a

/-- Python `max(a, b)` on integers (kernel-reducible form). -/
def pyMaxI (a b : Int) : Int := if a ≤ b then b else a

/-- `parse_break_to_hours` (lines 62-73): split on `:`; exactly two `int()`
pieces required, else 0; value `h + m/60` floored at 0.  The non-string
branch is unreachable in the modelled call sites. -/
def parse_break_to_hours (break_str : String) : ℚ :=
  let s := pyStrip break_str.data
  if s = [] then 0
  else
    match splitCh ':' s with
    | [p1, p2] =>
      match pyInt p1, pyInt p2 with
      | some h, some m => pyMax 0 ((h : ℚ) + (m : ℚ) / 60)
      | _, _ => 0
    | _ => 0

/-- Floor of a rational as an integer (den is positive, so floored division
of num by den). -/
def ratFloorZ (q : ℚ) : ℤ := Int.fdiv q.num (q.den : ℤ)

/-- Python `round` to the nearest integer, ties to even. -/
def roundTiesEven (q : ℚ) : ℤ :=
  let f := ratFloorZ q
  if q - (f : ℚ) < 1 / 2 then f
  else if (1 : ℚ) / 2 < q - (f : ℚ) then f + 1
  else if f % 2 = 0 then f else f + 1

/-- Python `round(x, 2)`. -/
def round2 (q : ℚ) : ℚ := (roundTiesEven (q * 100) : ℚ) / 100

/-- `calc_row_hours` (lines 107-118 of `timesheet_webui_autofill.py`,
lines 71-86 of `timesheet_webui.py`): unparseable start or end gives 0;
otherwise minutes since midnight, a single `+ 24*60` when the end precedes
the start (crossing midnight), minus break hours, floored at 0 and rounded
to 2 decimals. -/
def calc_row_hours (start_str end_str break_str : String) : ℚ :=
  match to_time_obj start_str, to_time_obj end_str with
  | some start_t, some end_t =>
    let start_minutes : Int := start_t.hour * 60 + start_t.minute
    let end_minutes : Int := end_t.hour * 60 + end_t.minute
    let end_minutes2 : Int :=
      if end_minutes < start_minutes then end_minutes + 24 * 60 else end_minutes
    let work_minutes : Int := pyMaxI 0 (end_minutes2 - start_minutes)
    round2 (pyMax 0 ((work_minutes : ℚ) / 60 - parse_break_to_hours break_str))
  | _, _ => 0

/-! ### Calendar dates (`str_to_date`, `date_to_str`, `weekday_abbr`,
lines 120-134 of `timesheet_webui_autofill.py`) -/

structure PyDate where
  year : Nat
  month : Nat
  day : Nat
deriving DecidableEq

def isLeap (y : Nat) : Bool :=
  (y % 4 == 0 && y % 100 != 0) || y % 400 == 0

def daysInMonth (y m : Nat) : Nat :=
  if m = 2 then (if isLeap y then 29 else 28)
  else if m = 4 ∨ m = 6 ∨ m = 9 ∨ m = 11 then 30
  else 31

/-- `d + timedelta(days=1)`.  Python raises `OverflowError` past year 9999;
the model rolls into year 10000 instead, which no modelled scenario reaches. -/
def pyDateSucc (d : PyDate) : PyDate :=
  if d.day < daysInMonth d.year d.month then ⟨d.year, d.month, d.day + 1⟩
  else if d.month < 12 then ⟨d.year, d.month + 1, 1⟩
  else ⟨d.year + 1, 1, 1⟩

/-- `d + timedelta(days=n)`. -/
def addDays (d : PyDate) : Nat → PyDate
  | 0 => d
  | n + 1 => pyDateSucc (addDays d n)

def DAYS : List String := ["Mon", "Tue", "Wed", "Thu", "Fri", "Sat", "Sun"]

/-- `date.weekday()`: 0 for Monday.  Computed from the standard
days-from-civil decomposition; a 400-year era is an exact number of weeks,
so the era term drops out modulo 7. -/
def weekdayNum (d : PyDate) : Nat :=
  let y := if d.month ≤ 2 then d.year - 1 else d.year
  let yoe := y - (y / 400) * 400
  let mp := if d.month ≤ 2 then d.month + 9 else d.month - 3
  let doy := (153 * mp + 2) / 5 + (d.day - 1)
  let doe := yoe * 365 + yoe / 4 - yoe / 100 + doy
  (doe + 2) % 7

/-- `weekday_abbr(d) = DAYS[d.weekday()]`. -/
def weekday_abbr (d : PyDate) : String :=
  (DAYS.getD (weekdayNum d) "")

/-- Exactly four decimal digits (the `%Y` pattern of `_strptime`). -/
def fourDigits (l : List Char) : Option Nat :=
  if l.length = 4 ∧ l.all (fun c => isDigitChar c) then some (digitsVal l) else none

/-- One or two decimal digits (the `%m` / `%d` patterns of `_strptime`,
value ranges checked separately). -/
def oneTwoDigits (l : List Char) : Option Nat :=
  if (l.length = 1 ∨ l.length = 2) ∧ l.all (fun c => isDigitChar c) then
    some (digitsVal l)
  else none

/-- Validity check of `datetime.date(y, m, d)` combined with the range parts
of the `%m`/`%d` regular expressions (year at least 1, month 1-12, day valid
for the month). -/
def checkDate (y m d : Nat) : Option PyDate :=
  if 1 ≤ y ∧ 1 ≤ m ∧ m ≤ 12 ∧ 1 ≤ d ∧ d ≤ daysInMonth y m then some ⟨y, m, d⟩
  else none

/-- `strptime` with format year-sep-month-sep-day (`%Y-%m-%d` or
`%Y/%m/%d`): the whole text must decompose as the three digit groups. -/
def parseYearFirst (sep : Char) (t : List Char) : Option PyDate :=
  match splitCh sep t with
  | [a, b, c] => do
    let y ← fourDigits a
    let m ← oneTwoDigits b
    let d ← oneTwoDigits c
    checkDate y m d
  | _ => none

/-- `strptime` with format day-sep-month-sep-year (`%d-%m-%Y` or
`%d/%m/%Y`). -/
def parseDayFirst (sep : Char) (t : List Char) : Option PyDate :=
  match splitCh sep t with
  | [a, b, c] => do
    let d ← oneTwoDigits a
    let m ← oneTwoDigits b
    let y ← fourDigits c
    checkDate y m d
  | _ => none

/-- `str_to_date` (lines 120-128): strip; empty gives `None`; otherwise the
four formats are tried in source order and the first success wins. -/
def str_to_date (ds : String) : Option PyDate :=
  let t := pyStrip ds.data
  if t = [] then none
  else
    ((((parseYearFirst '-' t).orElse fun _ => parseDayFirst '-' t).orElse
        fun _ => parseDayFirst '/' t).orElse
      fun _ => parseYearFirst '/' t)

/-- Decimal digits of `n` left-padded with zeros to width `w`. -/
def padNat (w n : Nat) : List Char :=
  let d := natDigits n
  List.replicate (w - d.length) '0' ++ d

/-- `date_to_str(d) = d.strftime("%Y-%m-%d")`. -/
def date_to_str (d : PyDate) : String :=
  ⟨padNat 4 d.year ++ '-' :: (padNat 2 d.month ++ '-' :: padNat 2 d.day)⟩

/-! ### The grid model

One `Row` per grid line with the columns of `BASE_COLUMNS` (line 138).
`workHours` is Python float, modelled as `ℚ`.  In `timesheet_webui.py`
(which has no Row ID column) the `rowId` field is simply unused. -/

structure Row where
  rowId : String
  date : String
  day : String
  startTime : String
  endTime : String
  brk : String
  workHours : ℚ
  descr : String
deriving DecidableEq

def defaultRow : Row := ⟨"", "", "", "", "", "", 0, ""⟩

/-- Row `j` of a grid (meaningful when `j` is in range). -/
def nthRow (df : List Row) (j : Nat) : Row :=
  df.getD j defaultRow

/-- Python truthiness of a stripped string: `True` when nonempty. -/
def blankStr (s : String) : Bool :=
  pyStrip s.data == []

/-! ### Row identity (`ensure_row_ids`, lines 140-147)

`uuid.uuid4()` is modelled by an external supply of identifier strings,
consumed left to right: the row with `k` blank-id rows before it receives
`supply k`.  The branch for a grid without a Row ID column gives every row
a fresh identifier, which coincides with this model at all-blank ids. -/

def ensure_row_ids_from (supply : Nat → String) : Nat → List Row → List Row
  | _, [] => []
  | k, r :: rs =>
    if blankStr r.rowId then
      { r with rowId := supply k } :: ensure_row_ids_from supply (k + 1) rs
    else
      r :: ensure_row_ids_from supply k rs

def ensure_row_ids (supply : Nat → String) (df : List Row) : List Row :=
  ensure_row_ids_from supply 0 df

/-- Number of blank-identifier rows strictly before position `j` (the
supply index consumed by the row at `j` when it is blank). -/
def blanksBefore (df : List Row) (j : Nat) : Nat :=
  ((df.take j).filter (fun r => blankStr r.rowId)).length

/-! ### New-row detection (`detect_new_ids`, lines 279-282)

The source reads

  `old_ids = set((old_df.get("Row ID") or []).tolist()) if "Row ID" in
  old_df.columns else set()`

and the same for `new_df`.  When the column exists (always, in every call
site of the application: the tables are built with a Row ID column and pass
through `ensure_row_ids` first), `old_df.get("Row ID")` is a pandas Series
and `Series or []` evaluates `bool(Series)`, which pandas
(`NDFrame.__bool__`) makes raise
`ValueError: The truth value of a Series is ambiguous...` unconditionally,
whatever the length.  The function therefore never returns; the raise is
modelled as an `Except.error`. -/

inductive PandasError where
  | truthValueAmbiguous
deriving DecidableEq

/-- `series or []` for a pandas Series: evaluates `bool(series)`, which
always raises. -/
def seriesOrEmptyList (_ids : List String) : Except PandasError (List String) :=
  Except.error PandasError.truthValueAmbiguous

/-- `detect_new_ids` exactly as written (lines 279-282): both grids carry a
Row ID column, so both `set(... or [] ...)` expressions are reached and the
first one raises.  The final line is the comprehension over the two sets. -/
def detect_new_ids (old_df new_df : List Row) : Except PandasError (List String) := do
  let old_ids ← seriesOrEmptyList (old_df.map Row.rowId)
  let new_ids ← seriesOrEmptyList (new_df.map Row.rowId)
  pure ((new_ids.dedup).filter (fun rid => !(old_ids.contains rid)))

/-- `detect_new_ids` with the `or []` slip removed
(`set(old_df["Row ID"].tolist())`), the evident intent of the function: the
identifiers of the current grid that are absent from the previous grid.
`List.dedup` realizes the `set(...)` value; Python leaves the iteration
order of a set of strings unspecified, and `dedup` fixes the
first-occurrence order as one admissible order (properties that depend on
the order are proved for every order below). -/
def detect_new_ids_fixed (old_df new_df : List Row) : List String :=
  ((new_df.map Row.rowId).dedup).filter
    (fun rid => !((old_df.map Row.rowId).contains rid))

/-! ### New-row defaulting (`get_last_non_empty_date` lines 284-289,
`autofill_rows_by_ids` lines 291-311) -/

/-- Scan the Date column backwards, returning the first parseable date. -/
def get_last_non_empty_date (df : List Row) : Option PyDate :=
  df.reverse.findSome? (fun r => str_to_date r.date)

/-- The reference date of `autofill_rows_by_ids` (line 295-296):
`get_last_non_empty_date(non_new) or date.today()` where `non_new` drops the
rows whose id is in `id_list`.  `today` is the ambient `date.today()`. -/
def refDate (today : PyDate) (df : List Row) (id_list : List String) : PyDate :=
  (get_last_non_empty_date
      (df.filter (fun r => !(id_list.contains r.rowId)))).getD today

/-- The guard of one write of the loop body:
`df.loc[rmask, col].astype(str).str.strip().eq("").all()` — every row
matched by `df["Row ID"] == rid` has a blank value in the column read by
`get` (`all` of an empty selection is `True`, as in pandas). -/
def allBlankBy (get : Row → String) (df : List Row) (rid : String) : Bool :=
  (df.filter (fun r => r.rowId == rid)).all (fun r => blankStr (get r))

/-- One guarded column write of the loop body (lines 303-310): if every row
matched by `df["Row ID"] == rid` has a blank field, write `v` into that
field of every matched row, else leave the grid unchanged. -/
def fillField (get : Row → String) (set : Row → String → Row)
    (v : String) (rid : String) (df : List Row) : List Row :=
  if allBlankBy get df rid then
    df.map (fun r => if r.rowId == rid then set r v else r)
  else df

/-- The four guarded writes for one identifier with candidate date `c`
(Date, then Day, then Start Time, then End Time, in source order). -/
def fill4 (df : List Row) (rid : String) (c : PyDate) : List Row :=
  fillField Row.endTime (fun r v => { r with endTime := v }) "18:00" rid
    (fillField Row.startTime (fun r v => { r with startTime := v }) "09:00" rid
      (fillField Row.day (fun r v => { r with day := v }) (weekday_abbr c) rid
        (fillField Row.date (fun r v => { r with date := v }) (date_to_str c) rid df)))

/-- The loop of `autofill_rows_by_ids` (lines 298-310): iterate over
`id_list` with the running index and candidate date,
`cur = ref_date if idx == 0 else cur + timedelta(days=1)`. -/
def autofillGo (df : List Row) (refD cur : PyDate) (idx : Nat) :
    List String → List Row
  | [] => df
  | rid :: rest =>
    let cur2 := if idx = 0 then refD else pyDateSucc cur
    autofillGo (fill4 df rid cur2) refD cur2 (idx + 1) rest

/-- `autofill_rows_by_ids(df, id_list)` (lines 291-311); `cur` starts at the
reference date (line 297). -/
def autofill_rows_by_ids (today : PyDate) (df : List Row)
    (id_list : List String) : List Row :=
  if id_list = [] then df
  else autofillGo df (refDate today df id_list) (refDate today df id_list) 0 id_list

/-! ### Hour recomputation (`recalc_hours`, lines 264-275 of
`timesheet_webui_autofill.py` and 113-124 of `timesheet_webui.py`)

Each row gets `Work Hours` recomputed from its normalized start/end and its
break text (`str(x or "")` is the identity on the strings of the model);
the returned total is the accumulated sum rounded to 2 decimals. -/

def recalc_go : List Row → List Row × ℚ
  | [] => ([], 0)
  | r :: rs =>
    let hrs := calc_row_hours (hhmm_or_blank r.startTime)
      (hhmm_or_blank r.endTime) r.brk
    let rest := recalc_go rs
    ({ r with workHours := hrs } :: rest.1, hrs + rest.2)

def recalc_hours (df : List Row) : List Row × ℚ :=
  ((recalc_go df).1, round2 (recalc_go df).2)

/-! ### Employee directory merge (module level, lines 366-372 of
`timesheet_webui_autofill.py`) -/

structure EmployeeInfo where
  employeeName : String
  ic : String
  department : String
  jobTitle : String
  reportingManager : String
  reviewMonth : String
  yearText : String
  dateText : String
deriving DecidableEq

/-- One entry of `employee_master_dict` (the four secondary fields). -/
structure MasterEntry where
  ic : String
  department : String
  jobTitle : String
  reportingManager : String
deriving DecidableEq

/-- The merge loop `for k, v in master.items(): if not employee.get(k,
"").strip(): employee[k] = v` — each of the four secondary fields is
replaced only when its current value strips to blank.  There is no
overwrite flag anywhere in the source. -/
def mergeEmployee (emp : EmployeeInfo) (entry : MasterEntry) : EmployeeInfo :=
  let e1 := if blankStr emp.ic then { emp with ic := entry.ic } else emp
  let e2 := if blankStr e1.department then { e1 with department := entry.department } else e1
  let e3 := if blankStr e2.jobTitle then { e2 with jobTitle := entry.jobTitle } else e2
  if blankStr e3.reportingManager then { e3 with reportingManager := entry.reportingManager } else e3

/-- The merge as the specification words it: `mergeInto(employeeInfo,
entry, overwrite)` replaces each of the four secondary fields only if
`overwrite` is true or the current value is blank.  Stated from the
specification for comparison with `mergeEmployee` above. -/
def mergeInto_spec (emp : EmployeeInfo) (entry : MasterEntry)
    (overwrite : Bool) : EmployeeInfo :=
  { emp with
    ic := if overwrite || blankStr emp.ic then entry.ic else emp.ic,
    department :=
      if overwrite || blankStr emp.department then entry.department else emp.department,
    jobTitle := if overwrite || blankStr emp.jobTitle then entry.jobTitle else emp.jobTitle,
    reportingManager :=
      if overwrite || blankStr emp.reportingManager then entry.reportingManager
      else emp.reportingManager }

/-- Row constructor used by concrete scenarios: identifier, date, day,
start, end; break and description empty, work hours 0. -/
def mkRow (rid dt dy st en : String) : Row :=
  ⟨rid, dt, dy, st, en, "", 0, ""⟩

/-! ### Specification-side machinery used to characterize the autofill loop -/

/-- The effect of the four guarded writes on one row (the four Booleans are
the guards computed for that row identifier, `c` the candidate date). -/
def fillRowIf (r : Row) (bD bY bS bE : Bool) (c : PyDate) : Row :=
  let r1 := if bD then { r with date := date_to_str c } else r
  let r2 := if bY then { r1 with day := weekday_abbr c } else r1
  let r3 := if bS then { r2 with startTime := "09:00" } else r2
  if bE then { r3 with endTime := "18:00" } else r3

/-- Index of the first occurrence of `x` in a list of identifiers. -/
def firstIdx (x : String) : List String → Option Nat
  | [] => none
  | y :: ys => if y = x then some 0 else (firstIdx x ys).map (· + 1)

/-- Pointwise description of the autofill loop: the row is untouched unless
its identifier occurs in the list, in which case each of the four fields is
written (with the candidate date of the identifier position) exactly when
the corresponding guard, evaluated on the original grid, holds. -/
def applyRowSpec (df : List Row) (l : List String) (refD : PyDate) (s : Nat)
    (r : Row) : Row :=
  match firstIdx r.rowId l with
  | none => r
  | some i =>
    fillRowIf r (allBlankBy Row.date df r.rowId) (allBlankBy Row.day df r.rowId)
      (allBlankBy Row.startTime df r.rowId) (allBlankBy Row.endTime df r.rowId)
      (addDays refD (s + i))

/-- The autofill loop with the candidate date expressed by position:
the identifier at position `s + i` of the overall list gets
`refD + (s + i)` days. -/
def goSpec (df : List Row) (refD : PyDate) (s : Nat) : List String → List Row
  | [] => df
  | rid :: rest => goSpec (fill4 df rid (addDays refD s)) refD (s + 1) rest

/-- The six orderings of a three-element set (Python set iteration order is
unspecified, so order-dependent facts are checked for every ordering). -/
def perms3 (a b c : String) : List (List String) :=
  [[a, b, c], [a, c, b], [b, a, c], [b, c, a], [c, a, b], [c, b, a]]

/-- The row of a grid carrying a given identifier (first match). -/
def rowById (df : List Row) (rid : String) : Row :=
  (df.find? (fun r => r.rowId == rid)).getD defaultRow

/-! ### Concrete scenarios -/

/-- Previous grid R1..R5 of the identity-diff scenario. -/
def c1Old : List Row :=
  [mkRow "R1" "" "" "" "", mkRow "R2" "" "" "" "", mkRow "R3" "" "" "" "",
   mkRow "R4" "" "" "" "", mkRow "R5" "" "" "" ""]

/-- Current grid of the identity-diff scenario: R3 deleted, new row N1
inserted in the middle, new row N2 inserted near the end. -/
def c1New : List Row :=
  [mkRow "R1" "" "" "" "", mkRow "N1" "" "" "" "", mkRow "R2" "" "" "" "",
   mkRow "R4" "" "" "" "", mkRow "N2" "" "" "" "", mkRow "R5" "" "" "" ""]

/-- Grid of the defaulting-order counterexample: one dated anchor row and
two blank new rows, `a` displayed before `b`. -/
def c2Grid : List Row :=
  [mkRow "r0" "2024-01-10" "" "" "", mkRow "a" "" "" "" "", mkRow "b" "" "" "" ""]

def c2Today : PyDate := ⟨2024, 5, 1⟩

/-- Grid before appending, last dated row 2024-01-10. -/
def c3Before : List Row :=
  [mkRow "a1" "2024-01-09" "" "" "", mkRow "a2" "2024-01-10" "" "" ""]

/-- Grid after appending three blank rows n1, n2, n3 at the tail. -/
def c3After : List Row :=
  c3Before ++ [mkRow "n1" "" "" "" "", mkRow "n2" "" "" "" "", mkRow "n3" "" "" "" ""]

def c3Today : PyDate := ⟨2024, 6, 1⟩

/-- Dates the defaulter actually hands to the three new rows, by position
in the processed identifier list. -/
def c3Dates : List String := ["2024-01-10", "2024-01-11", "2024-01-12"]

/-- Check of one processing order `l` of the three new identifiers: the row
of the identifier at position `i` carries date `c3Dates[i]`, its day is the
weekday of that date, start and end are the defaults, and no row of the
grid carries the claimed date 2024-01-13. -/
def c3Check (l : List String) : Bool :=
  let res := autofill_rows_by_ids c3Today c3After l
  (List.range 3).all (fun i =>
    let r := rowById res (l.getD i "")
    r.date == c3Dates.getD i "" &&
    r.day == weekday_abbr ((str_to_date r.date).getD ⟨1, 1, 1⟩) &&
    r.startTime == "09:00" && r.endTime == "18:00") &&
  (res.filter (fun r => r.date == "2024-01-13")).isEmpty

/-- Witness grid for the idempotence/non-destructiveness claim: a dated
anchor, a row with a pre-set unparseable date and a pre-set start time, and
a blank new row. -/
def c4Grid : List Row :=
  [mkRow "r0" "2024-01-10" "" "" "", mkRow "x" "abcd" "" "07:30" "",
   mkRow "y" "" "" "" ""]

/-- One-row grid exercising the hour recomputation. -/
def c5Grid : List Row :=
  [⟨"w", "2024-01-10", "Wed", "09:00", "18:00", "00:30", 0, "site work"⟩]

/-- Identifier generator standing in for uuid4 in concrete scenarios. -/
def c8Supply : Nat → String := fun _ => "u-77f3"

/-- Grid with one row that already has an identifier and one blank row. -/
def c8Grid : List Row :=
  [mkRow "keep" "2024-01-10" "" "" "", mkRow "" "" "" "" ""]

/-- EmployeeInfo with a pre-set IC# value X. -/
def c9Emp : EmployeeInfo :=
  ⟨"Sarath Gosh", "X", "", "", "", "", "", ""⟩

/-- Directory entry carrying IC# value Y. -/
def c9Entry : MasterEntry :=
  ⟨"Y", "Engineering", "Remote Engineer", "Shailesh"⟩


/-! ## Helper lemmas: stripping -/

theorem dropWhile_eq_self_of_all {p : Char → Bool} {l : List Char}
    (h : ∀ c ∈ l, p c = false) : l.dropWhile p = l := by
  cases l with
  | nil => rfl
  | cons c rest =>
    rw [List.dropWhile_cons, if_neg]
    simp [h c (by simp)]

theorem pyStrip_eq_self {l : List Char} (h : ∀ c ∈ l, isPySpace c = false) :
    pyStrip l = l := by
  unfold pyStrip
  rw [dropWhile_eq_self_of_all h,
    dropWhile_eq_self_of_all (fun c hc => h c (List.mem_reverse.mp hc)),
    List.reverse_reverse]

theorem dropWhile_dropWhile {p : Char → Bool} (l : List Char) :
    (l.dropWhile p).dropWhile p = l.dropWhile p := by
  induction l with
  | nil => rfl
  | cons c rest ih =>
    rw [List.dropWhile_cons]
    by_cases h : p c = true
    · rw [if_pos h]; exact ih
    · rw [if_neg h, List.dropWhile_cons, if_neg h]

theorem dropWhile_prefix_clean {p : Char → Bool} {x y t : List Char}
    (hx : x.dropWhile p = x) (he : x = y ++ t) : y.dropWhile p = y := by
  cases y with
  | nil => rfl
  | cons c ys =>
    subst he
    rw [List.cons_append, List.dropWhile_cons] at hx
    by_cases h : p c = true
    · exfalso
      rw [if_pos h] at hx
      have hlen := congrArg List.length hx
      rw [List.length_cons] at hlen
      have hle := (List.dropWhile_sublist (l := ys ++ t) p).length_le
      omega
    · rw [List.dropWhile_cons, if_neg h]

theorem pyStrip_idem (l : List Char) : pyStrip (pyStrip l) = pyStrip l := by
  have hA : (l.dropWhile isPySpace).dropWhile isPySpace = l.dropWhile isPySpace :=
    dropWhile_dropWhile l
  obtain ⟨w, hw⟩ :=
    List.dropWhile_suffix (l := (l.dropWhile isPySpace).reverse) isPySpace
  have hApre : l.dropWhile isPySpace =
      ((l.dropWhile isPySpace).reverse.dropWhile isPySpace).reverse ++ w.reverse := by
    have h2 := congrArg List.reverse hw
    simpa using h2.symm
  have h1 := dropWhile_prefix_clean hA hApre
  have h2 := dropWhile_dropWhile (p := isPySpace) (l.dropWhile isPySpace).reverse
  show ((((((l.dropWhile isPySpace).reverse.dropWhile isPySpace).reverse).dropWhile
      isPySpace).reverse).dropWhile isPySpace).reverse = _
  rw [h1, List.reverse_reverse, h2]
  rfl

/-! ## Helper lemmas: digits, int parsing, formatting -/

theorem natDigitsAux_mem {fuel n : Nat} {c : Char} (h : c ∈ natDigitsAux fuel n) :
    ∃ k, k < 10 ∧ c = Char.ofNat (48 + k) := by
  induction fuel generalizing n with
  | zero => simp [natDigitsAux] at h
  | succ fuel ih =>
    rw [natDigitsAux] at h
    by_cases h10 : n < 10
    · rw [if_pos h10] at h
      simp at h
      exact ⟨n, h10, h⟩
    · rw [if_neg h10] at h
      rcases List.mem_append.mp h with h1 | h2
      · exact ih h1
      · simp at h2
        exact ⟨n % 10, Nat.mod_lt _ (by omega), h2⟩

theorem isPySpace_digit {k : Nat} (hk : k < 10) :
    isPySpace (Char.ofNat (48 + k)) = false := by
  interval_cases k <;> decide

theorem isDigitChar_digit {k : Nat} (hk : k < 10) :
    isDigitChar (Char.ofNat (48 + k)) = true := by
  interval_cases k <;> decide

theorem toNat_digit {k : Nat} (hk : k < 10) :
    (Char.ofNat (48 + k)).toNat = 48 + k := by
  interval_cases k <;> decide

theorem ne_underscore_digit {k : Nat} (hk : k < 10) :
    Char.ofNat (48 + k) ≠ '_' := by
  interval_cases k <;> decide

theorem digitsVal_append (xs : List Char) (c : Char) :
    digitsVal (xs ++ [c]) = 10 * digitsVal xs + (c.toNat - 48) := by
  unfold digitsVal
  rw [List.foldl_append]
  rfl

theorem digitsVal_natDigitsAux :
    ∀ fuel n, n < 10 ^ fuel → digitsVal (natDigitsAux fuel n) = n := by
  intro fuel
  induction fuel with
  | zero =>
    intro n hn
    interval_cases n
    rfl
  | succ fuel ih =>
    intro n hn
    rw [natDigitsAux]
    by_cases h10 : n < 10
    · rw [if_pos h10]
      show digitsVal [Char.ofNat (48 + n)] = n
      unfold digitsVal
      simp [toNat_digit h10]
    · rw [if_neg h10, digitsVal_append, ih (n / 10) ?hlt, toNat_digit (Nat.mod_lt _ (by omega))]
      · omega
      case hlt =>
        rw [pow_succ, Nat.mul_comm] at hn
        exact Nat.div_lt_of_lt_mul hn

theorem digitsVal_natDigits (n : Nat) : digitsVal (natDigits n) = n := by
  have h : n < 10 ^ (n + 1) := by
    calc n < n + 1 := by omega
    _ ≤ 10 ^ (n + 1) := (Nat.lt_pow_self (by norm_num) _).le
  exact digitsVal_natDigitsAux (n + 1) n h

theorem natDigits_ne_nil (n : Nat) : natDigits n ≠ [] := by
  unfold natDigits natDigitsAux
  by_cases h10 : n < 10
  · rw [if_pos h10]; simp
  · rw [if_neg h10]; simp

theorem natDigits_all_digits {n : Nat} {c : Char} (h : c ∈ natDigits n) :
    isDigitChar c = true := by
  obtain ⟨k, hk, rfl⟩ := natDigitsAux_mem h
  exact isDigitChar_digit hk

theorem ne_plus_digit {k : Nat} (hk : k < 10) : Char.ofNat (48 + k) ≠ '+' := by
  interval_cases k <;> decide

theorem ne_minus_digit {k : Nat} (hk : k < 10) : Char.ofNat (48 + k) ≠ '-' := by
  interval_cases k <;> decide

theorem ne_colon_digit {k : Nat} (hk : k < 10) : Char.ofNat (48 + k) ≠ ':' := by
  interval_cases k <;> decide

theorem pyIntCore_cons (c : Char) (rest : List Char) :
    pyIntCore (c :: rest) =
      if c = '+' then (pyNatDigits rest).map Int.ofNat
      else if c = '-' then (pyNatDigits rest).map (fun n => -(Int.ofNat n))
      else (pyNatDigits (c :: rest)).map Int.ofNat := rfl

theorem pyDigitsTail_of_digits {l : List Char}
    (h : ∀ c ∈ l, isDigitChar c = true) : pyDigitsTail l = true := by
  induction l with
  | nil => rfl
  | cons c rest ih =>
    have hc := h c (by simp)
    have hne : c ≠ '_' := by
      intro he
      rw [he] at hc
      exact absurd hc (by decide)
    cases rest with
    | nil =>
      show (if c = '_' then false else isDigitChar c) = true
      rw [if_neg hne, hc]
    | cons c2 rest2 =>
      show (if c = '_' then isDigitChar c2 && pyDigitsTail rest2
        else isDigitChar c && pyDigitsTail (c2 :: rest2)) = true
      rw [if_neg hne, hc, ih (fun x hx => h x (by simp [hx]))]
      rfl

theorem filter_underscore_of_digits {l : List Char}
    (h : ∀ c ∈ l, isDigitChar c = true) :
    l.filter (fun d => d != '_') = l := by
  apply List.filter_eq_self.mpr
  intro c hc
  have hd := h c hc
  simp only [bne_iff_ne, ne_eq, decide_eq_true_eq]
  intro he
  rw [he] at hd
  exact absurd hd (by decide)

theorem pyNatDigits_of_digits {l : List Char} (hne : l ≠ [])
    (h : ∀ c ∈ l, isDigitChar c = true) :
    pyNatDigits l = some (digitsVal l) := by
  cases l with
  | nil => exact absurd rfl hne
  | cons c rest =>
    simp only [pyNatDigits]
    rw [if_pos, filter_underscore_of_digits h]
    rw [h c (by simp), pyDigitsTail_of_digits (fun c2 hc2 => h c2 (by simp [hc2]))]
    rfl

theorem digitsVal_cons_zero (d : List Char) : digitsVal ('0' :: d) = digitsVal d := by
  unfold digitsVal
  rw [List.foldl_cons]
  rw [show 10 * 0 + ('0'.toNat - 48) = 0 from by decide]

theorem natDigits_no_space {n : Nat} {c : Char} (h : c ∈ natDigits n) :
    isPySpace c = false := by
  obtain ⟨k, hk, rfl⟩ := natDigitsAux_mem h
  exact isPySpace_digit hk

theorem pyInt_fmt02 (a : Int) : pyInt (fmt02 a) = some a := by
  by_cases ha : a < 0
  · rw [fmt02, if_pos ha, pyInt]
    rw [pyStrip_eq_self (fun c hc => by
      rcases List.mem_cons.mp hc with rfl | hm
      · decide
      · exact natDigits_no_space hm)]
    rw [pyIntCore_cons, if_neg (by decide), if_pos rfl]
    rw [pyNatDigits_of_digits (natDigits_ne_nil _) (fun c hc => natDigits_all_digits hc)]
    rw [digitsVal_natDigits]
    simp only [Option.map_some']
    congr 1
    rw [show Int.ofNat a.natAbs = (a.natAbs : Int) from rfl]
    omega
  · rw [fmt02, if_neg ha]
    by_cases hlen : (natDigits a.toNat).length < 2
    · rw [if_pos hlen, pyInt]
      rw [pyStrip_eq_self (fun c hc => by
        rcases List.mem_cons.mp hc with rfl | hm
        · decide
        · exact natDigits_no_space hm)]
      rw [pyIntCore_cons, if_neg (by decide), if_neg (by decide)]
      rw [pyNatDigits_of_digits (by simp) (fun c hc => by
        rcases List.mem_cons.mp hc with rfl | hm
        · decide
        · exact natDigits_all_digits hm)]
      rw [digitsVal_cons_zero, digitsVal_natDigits]
      simp only [Option.map_some']
      congr 1
      exact Int.toNat_of_nonneg (by omega)
    · rw [if_neg hlen, pyInt]
      rw [pyStrip_eq_self (fun c hc => natDigits_no_space hc)]
      cases hd : natDigits a.toNat with
      | nil => exact absurd hd (natDigits_ne_nil _)
      | cons c rest =>
        have hcmem : c ∈ natDigits a.toNat := by rw [hd]; simp
        obtain ⟨k, hk, hck⟩ := natDigitsAux_mem hcmem
        rw [pyIntCore_cons, if_neg (hck ▸ ne_plus_digit hk),
          if_neg (hck ▸ ne_minus_digit hk)]
        rw [← hd]
        rw [pyNatDigits_of_digits (natDigits_ne_nil _)
          (fun c2 hc2 => natDigits_all_digits hc2)]
        rw [digitsVal_natDigits]
        simp only [Option.map_some']
        congr 1
        exact Int.toNat_of_nonneg (by omega)

/-! ## Helper lemmas: splitting -/

theorem splitCh_ne_nil (sep : Char) (l : List Char) : splitCh sep l ≠ [] := by
  cases l with
  | nil => simp [splitCh]
  | cons c rest =>
    simp only [splitCh]
    by_cases h : c == sep
    · rw [if_pos h]; simp
    · rw [if_neg h]
      cases splitCh sep rest with
      | nil => simp
      | cons p ps => simp

theorem splitCh_of_not_mem {sep : Char} {l : List Char} (h : sep ∉ l) :
    splitCh sep l = [l] := by
  induction l with
  | nil => rfl
  | cons c rest ih =>
    have hcs : ¬(c == sep) = true := by
      simp only [beq_iff_eq]
      intro he
      exact h (by rw [he]; simp)
    simp only [splitCh]
    rw [if_neg hcs, ih (fun hm => h (by simp [hm]))]

theorem splitCh_append_sep {sep : Char} {xs : List Char} (ys : List Char)
    (h : sep ∉ xs) : splitCh sep (xs ++ sep :: ys) = xs :: splitCh sep ys := by
  induction xs with
  | nil =>
    simp only [List.nil_append, splitCh]
    rw [if_pos (by simp)]
  | cons c rest ih =>
    have hcs : ¬(c == sep) = true := by
      simp only [beq_iff_eq]
      intro he
      exact h (by rw [he]; simp)
    simp only [List.cons_append, splitCh]
    rw [if_neg hcs]
    have ihr := ih (fun hm => h (by simp [hm]))
    simp only [List.append_eq]
    rw [ihr]

/-! ## The normalization lemma: re-parsing the zero-padded rendering of a
parsed time gives the same result as parsing the original text -/

theorem fmt02_no_colon {a : Int} {c : Char} (h : c ∈ fmt02 a) : c ≠ ':' := by
  rw [fmt02] at h
  by_cases ha : a < 0
  · rw [if_pos ha] at h
    rcases List.mem_cons.mp h with rfl | hm
    · decide
    · obtain ⟨k, hk, rfl⟩ := natDigitsAux_mem hm
      exact ne_colon_digit hk
  · rw [if_neg ha] at h
    by_cases hlen : (natDigits a.toNat).length < 2
    · rw [if_pos hlen] at h
      rcases List.mem_cons.mp h with rfl | hm
      · decide
      · obtain ⟨k, hk, rfl⟩ := natDigitsAux_mem hm
        exact ne_colon_digit hk
    · rw [if_neg hlen] at h
      obtain ⟨k, hk, rfl⟩ := natDigitsAux_mem h
      exact ne_colon_digit hk

theorem fmt02_no_space {a : Int} {c : Char} (h : c ∈ fmt02 a) :
    isPySpace c = false := by
  rw [fmt02] at h
  by_cases ha : a < 0
  · rw [if_pos ha] at h
    rcases List.mem_cons.mp h with rfl | hm
    · decide
    · exact natDigits_no_space hm
  · rw [if_neg ha] at h
    by_cases hlen : (natDigits a.toNat).length < 2
    · rw [if_pos hlen] at h
      rcases List.mem_cons.mp h with rfl | hm
      · decide
      · exact natDigits_no_space hm
    · rw [if_neg hlen] at h
      exact natDigits_no_space h

theorem fmtTime_no_space {a b : Int} {c : Char} (h : c ∈ fmtTime a b) :
    isPySpace c = false := by
  rw [fmtTime] at h
  rcases List.mem_append.mp h with h1 | h2
  · exact fmt02_no_space h1
  · rcases List.mem_cons.mp h2 with rfl | hm
    · decide
    · exact fmt02_no_space hm

theorem classifyTime_fmtTime (a b : Int) :
    classifyTime (fmtTime a b) = some (a, b) := by
  rw [classifyTime]
  rw [if_pos (by
    apply List.elem_iff.mpr
    rw [fmtTime]
    exact List.mem_append.mpr (Or.inr (by simp)))]
  rw [fmtTime, splitCh_append_sep _ (fun hm => fmt02_no_colon hm rfl),
    splitCh_of_not_mem (fun hm => fmt02_no_colon hm rfl)]
  simp only [pyInt_fmt02]

theorem to_time_obj_hhmm (s : String) :
    to_time_obj (hhmm_or_blank s) = to_time_obj s := by
  rw [hhmm_or_blank]
  by_cases hs : s = ""
  · rw [if_pos hs, hs]
  · rw [if_neg hs]
    cases hc : classifyTime (pyStrip s.data) with
    | none =>
      show to_time_obj ⟨pyStrip s.data⟩ = to_time_obj s
      unfold to_time_obj
      show (match classifyTime (pyStrip (pyStrip s.data)) with
        | some (a, b) => mkTime a b
        | none => none) = _
      rw [pyStrip_idem, hc]
    | some ab =>
      obtain ⟨a, b⟩ := ab
      show to_time_obj ⟨fmtTime a b⟩ = to_time_obj s
      unfold to_time_obj
      show (match classifyTime (pyStrip (fmtTime a b)) with
        | some (a, b) => mkTime a b
        | none => none) = _
      rw [pyStrip_eq_self (fun c hcm => fmtTime_no_space hcm),
        classifyTime_fmtTime, hc]


/-! ## Helper lemmas: grids -/

theorem nthRow_map (f : Row → Row) (df : List Row) (j : Nat) (h : j < df.length) :
    nthRow (df.map f) j = f (nthRow df j) := by
  induction df generalizing j with
  | nil => simp at h
  | cons r rs ih =>
    cases j with
    | zero => rfl
    | succ k =>
      have hk : k < rs.length := by simpa using h
      show nthRow (rs.map f) k = f (nthRow rs k)
      exact ih k hk

theorem nthRow_mem (df : List Row) (j : Nat) (h : j < df.length) : nthRow df j ∈ df := by
  induction df generalizing j with
  | nil => simp at h
  | cons r rs ih =>
    cases j with
    | zero => exact List.mem_cons_self _ _
    | succ k =>
      have hk : k < rs.length := by simpa using h
      exact List.mem_cons_of_mem _ (ih k hk)

theorem all_congr_on {α : Type} {p q : α → Bool} (l : List α)
    (h : ∀ x ∈ l, p x = q x) : l.all p = l.all q := by
  induction l with
  | nil => rfl
  | cons x xs ih =>
    simp only [List.all_cons]
    rw [h x (by simp), ih (fun y hy => h y (by simp [hy]))]

theorem filter_map_comm {f : Row → Row} {q : Row → Bool}
    (hq : ∀ r, q (f r) = q r) (df : List Row) :
    (df.map f).filter q = (df.filter q).map f := by
  induction df with
  | nil => rfl
  | cons r rs ih =>
    simp only [List.map_cons, List.filter_cons, hq r]
    by_cases h : q r = true
    · simp [h, ih]
    · simp [h, ih]

theorem map_id_on {f : Row → Row} {df : List Row} (h : ∀ r ∈ df, f r = r) :
    df.map f = df := by
  induction df with
  | nil => rfl
  | cons r rs ih =>
    rw [List.map_cons, h r (by simp), ih (fun x hx => h x (by simp [hx]))]

/-! ## Helper lemmas: the guarded writes -/

/-- `fillField` as a single map with the guard evaluated on the input. -/
theorem fillField_eq_map (get : Row → String) (set : Row → String → Row)
    (v : String) (rid : String) (df : List Row) :
    fillField get set v rid df =
      df.map (fun r =>
        if allBlankBy get df rid && (r.rowId == rid) then set r v else r) := by
  rw [fillField]
  by_cases hb : allBlankBy get df rid = true
  · rw [if_pos hb]
    apply List.map_congr_left
    intro r _
    rw [hb, Bool.true_and]
  · rw [if_neg hb]
    have hb2 : allBlankBy get df rid = false := by
      cases hq : allBlankBy get df rid
      · rfl
      · exact absurd hq hb
    symm
    apply map_id_on
    intro r _
    rw [hb2, Bool.false_and]
    rfl

theorem fillField_length (get : Row → String) (set : Row → String → Row)
    (v : String) (rid : String) (df : List Row) :
    (fillField get set v rid df).length = df.length := by
  rw [fillField_eq_map, List.length_map]

theorem fillField_nthRow (get : Row → String) (set : Row → String → Row)
    (v : String) (rid : String) (df : List Row) (j : Nat) (h : j < df.length) :
    nthRow (fillField get set v rid df) j =
      if allBlankBy get df rid && ((nthRow df j).rowId == rid) then
        set (nthRow df j) v
      else nthRow df j := by
  rw [fillField_eq_map, nthRow_map _ _ _ h]

/-- The guard is unchanged by mapping a function over the grid that
preserves identifiers and the guarded column. -/
theorem allBlankBy_map (get2 : Row → String) (f : Row → Row) (df : List Row)
    (rid2 : String) (hid : ∀ r, (f r).rowId = r.rowId)
    (hg : ∀ r, get2 (f r) = get2 r) :
    allBlankBy get2 (df.map f) rid2 = allBlankBy get2 df rid2 := by
  rw [allBlankBy, allBlankBy]
  rw [filter_map_comm (fun r => by rw [hid r]), List.all_map]
  apply all_congr_on
  intro r _
  show blankStr (get2 (f r)) = blankStr (get2 r)
  rw [hg r]

/-- The guard of a later write is unchanged by an earlier write that
touches a different column (and leaves identifiers alone). -/
theorem allBlankBy_fillField (get2 get : Row → String) (set : Row → String → Row)
    (v rid rid2 : String) (df : List Row)
    (hid : ∀ r v2, (set r v2).rowId = r.rowId)
    (hg : ∀ r v2, get2 (set r v2) = get2 r) :
    allBlankBy get2 (fillField get set v rid df) rid2 = allBlankBy get2 df rid2 := by
  rw [fillField_eq_map]
  apply allBlankBy_map
  · intro r
    by_cases hc : (allBlankBy get df rid && (r.rowId == rid)) = true
    · rw [if_pos hc, hid]
    · rw [if_neg hc]
  · intro r
    by_cases hc : (allBlankBy get df rid && (r.rowId == rid)) = true
    · rw [if_pos hc, hg]
    · rw [if_neg hc]

theorem allBlankBy_map_on (get2 : Row → String) (f : Row → Row) (df : List Row)
    (rid2 : String) (hid : ∀ r, (f r).rowId = r.rowId)
    (hg : ∀ r, (r.rowId == rid2) = true → get2 (f r) = get2 r) :
    allBlankBy get2 (df.map f) rid2 = allBlankBy get2 df rid2 := by
  rw [allBlankBy, allBlankBy]
  rw [filter_map_comm (fun r => by rw [hid r]), List.all_map]
  apply all_congr_on
  intro r hr
  show blankStr (get2 (f r)) = blankStr (get2 r)
  rw [hg r (List.mem_filter.mp hr).2]

/-- The guard for one identifier is unchanged by a write aimed at a
different identifier, whatever column that write touches. -/
theorem allBlankBy_fillField_ne (get2 get : Row → String) (set : Row → String → Row)
    (v rid rid2 : String) (df : List Row)
    (hid : ∀ r v2, (set r v2).rowId = r.rowId) (hne : rid2 ≠ rid) :
    allBlankBy get2 (fillField get set v rid df) rid2 = allBlankBy get2 df rid2 := by
  rw [fillField_eq_map]
  apply allBlankBy_map_on
  · intro r
    by_cases hc : (allBlankBy get df rid && (r.rowId == rid)) = true
    · rw [if_pos hc, hid]
    · rw [if_neg hc]
  · intro r hr
    have hr2 : r.rowId = rid2 := by simpa using hr
    have hf : (r.rowId == rid) = false := by
      rw [hr2]
      exact beq_eq_false_iff_ne.mpr hne
    rw [hf, Bool.and_false]
    rfl

theorem fill4_length (df : List Row) (rid : String) (c : PyDate) :
    (fill4 df rid c).length = df.length := by
  rw [fill4, fillField_length, fillField_length, fillField_length, fillField_length]

/-- All four guards for a different identifier survive `fill4`. -/
theorem allBlankBy_fill4_ne (get2 : Row → String) (df : List Row)
    (rid rid2 : String) (c : PyDate) (hne : rid2 ≠ rid) :
    allBlankBy get2 (fill4 df rid c) rid2 = allBlankBy get2 df rid2 := by
  rw [fill4]
  rw [allBlankBy_fillField_ne get2 Row.endTime (fun r v => { r with endTime := v })
    "18:00" rid rid2 _ (fun r v => rfl) hne]
  rw [allBlankBy_fillField_ne get2 Row.startTime (fun r v => { r with startTime := v })
    "09:00" rid rid2 _ (fun r v => rfl) hne]
  rw [allBlankBy_fillField_ne get2 Row.day (fun r v => { r with day := v })
    (weekday_abbr c) rid rid2 _ (fun r v => rfl) hne]
  rw [allBlankBy_fillField_ne get2 Row.date (fun r v => { r with date := v })
    (date_to_str c) rid rid2 _ (fun r v => rfl) hne]

/-- Row-level description of `fill4`: rows of other identifiers are
untouched; the rows of `rid` get the four guarded writes with the guards
evaluated on the incoming grid. -/
theorem fill4_nthRow (df : List Row) (rid : String) (c : PyDate) (j : Nat)
    (h : j < df.length) :
    nthRow (fill4 df rid c) j =
      if (nthRow df j).rowId == rid then
        fillRowIf (nthRow df j) (allBlankBy Row.date df rid)
          (allBlankBy Row.day df rid) (allBlankBy Row.startTime df rid)
          (allBlankBy Row.endTime df rid) c
      else nthRow df j := by
  rw [fill4]
  have hL1 : j < (fillField Row.date (fun r v => { r with date := v })
      (date_to_str c) rid df).length := by rw [fillField_length]; exact h
  have hL2 : j < (fillField Row.day (fun r v => { r with day := v })
      (weekday_abbr c) rid (fillField Row.date (fun r v => { r with date := v })
      (date_to_str c) rid df)).length := by rw [fillField_length]; exact hL1
  have hL3 : j < (fillField Row.startTime (fun r v => { r with startTime := v })
      "09:00" rid (fillField Row.day (fun r v => { r with day := v })
      (weekday_abbr c) rid (fillField Row.date (fun r v => { r with date := v })
      (date_to_str c) rid df))).length := by rw [fillField_length]; exact hL2
  have h1 := fillField_nthRow Row.date (fun r v => { r with date := v })
    (date_to_str c) rid df j h
  have h2 := fillField_nthRow Row.day (fun r v => { r with day := v })
    (weekday_abbr c) rid _ j hL1
  have h3 := fillField_nthRow Row.startTime (fun r v => { r with startTime := v })
    "09:00" rid _ j hL2
  have h4 := fillField_nthRow Row.endTime (fun r v => { r with endTime := v })
    "18:00" rid _ j hL3
  have hid1 : (nthRow (fillField Row.date (fun r v => { r with date := v })
      (date_to_str c) rid df) j).rowId = (nthRow df j).rowId := by
    rw [h1]; split <;> rfl
  have hid2 : (nthRow (fillField Row.day (fun r v => { r with day := v })
      (weekday_abbr c) rid (fillField Row.date (fun r v => { r with date := v })
      (date_to_str c) rid df)) j).rowId = (nthRow df j).rowId := by
    rw [h2]; split
    · exact hid1
    · exact hid1
  have hid3 : (nthRow (fillField Row.startTime (fun r v => { r with startTime := v })
      "09:00" rid (fillField Row.day (fun r v => { r with day := v })
      (weekday_abbr c) rid (fillField Row.date (fun r v => { r with date := v })
      (date_to_str c) rid df))) j).rowId = (nthRow df j).rowId := by
    rw [h3]; split
    · exact hid2
    · exact hid2
  have hbY : allBlankBy Row.day (fillField Row.date (fun r v => { r with date := v })
      (date_to_str c) rid df) rid = allBlankBy Row.day df rid :=
    allBlankBy_fillField Row.day Row.date (fun r v => { r with date := v })
      (date_to_str c) rid rid df (fun r v => rfl) (fun r v => rfl)
  have hbS : allBlankBy Row.startTime (fillField Row.day (fun r v => { r with day := v })
      (weekday_abbr c) rid (fillField Row.date (fun r v => { r with date := v })
      (date_to_str c) rid df)) rid = allBlankBy Row.startTime df rid := by
    rw [allBlankBy_fillField Row.startTime Row.day (fun r v => { r with day := v })
      (weekday_abbr c) rid rid _ (fun r v => rfl) (fun r v => rfl)]
    exact allBlankBy_fillField Row.startTime Row.date (fun r v => { r with date := v })
      (date_to_str c) rid rid df (fun r v => rfl) (fun r v => rfl)
  have hbE : allBlankBy Row.endTime (fillField Row.startTime
      (fun r v => { r with startTime := v }) "09:00" rid
      (fillField Row.day (fun r v => { r with day := v }) (weekday_abbr c) rid
      (fillField Row.date (fun r v => { r with date := v }) (date_to_str c) rid df)))
      rid = allBlankBy Row.endTime df rid := by
    rw [allBlankBy_fillField Row.endTime Row.startTime
      (fun r v => { r with startTime := v }) "09:00" rid rid _
      (fun r v => rfl) (fun r v => rfl)]
    rw [allBlankBy_fillField Row.endTime Row.day (fun r v => { r with day := v })
      (weekday_abbr c) rid rid _ (fun r v => rfl) (fun r v => rfl)]
    exact allBlankBy_fillField Row.endTime Row.date (fun r v => { r with date := v })
      (date_to_str c) rid rid df (fun r v => rfl) (fun r v => rfl)
  rw [hbY, hid1] at h2
  rw [hbS, hid2] at h3
  rw [hbE, hid3] at h4
  cases hm : ((nthRow df j).rowId == rid) with
  | false =>
    rw [hm, Bool.and_false] at h1 h2 h3 h4
    simp only [Bool.false_eq_true, if_false] at h1 h2 h3 h4
    rw [h4, h3, h2, h1, if_neg (by simp [hm])]
  | true =>
    rw [hm, Bool.and_true] at h1 h2 h3 h4
    rw [h4, h3, h2, h1, if_pos rfl]
    rfl

/-! ## The loop characterization -/

theorem fillRowIf_rowId (r : Row) (bD bY bS bE : Bool) (c : PyDate) :
    (fillRowIf r bD bY bS bE c).rowId = r.rowId := by
  cases bD <;> cases bY <;> cases bS <;> cases bE <;> rfl

theorem fillRowIf_date (r : Row) (bD bY bS bE : Bool) (c : PyDate) :
    (fillRowIf r bD bY bS bE c).date = if bD then date_to_str c else r.date := by
  cases bD <;> cases bY <;> cases bS <;> cases bE <;> rfl

theorem fillRowIf_day (r : Row) (bD bY bS bE : Bool) (c : PyDate) :
    (fillRowIf r bD bY bS bE c).day = if bY then weekday_abbr c else r.day := by
  cases bD <;> cases bY <;> cases bS <;> cases bE <;> rfl

theorem fillRowIf_startTime (r : Row) (bD bY bS bE : Bool) (c : PyDate) :
    (fillRowIf r bD bY bS bE c).startTime = if bS then "09:00" else r.startTime := by
  cases bD <;> cases bY <;> cases bS <;> cases bE <;> rfl

theorem fillRowIf_endTime (r : Row) (bD bY bS bE : Bool) (c : PyDate) :
    (fillRowIf r bD bY bS bE c).endTime = if bE then "18:00" else r.endTime := by
  cases bD <;> cases bY <;> cases bS <;> cases bE <;> rfl

theorem fillRowIf_brk (r : Row) (bD bY bS bE : Bool) (c : PyDate) :
    (fillRowIf r bD bY bS bE c).brk = r.brk := by
  cases bD <;> cases bY <;> cases bS <;> cases bE <;> rfl

theorem fillRowIf_descr (r : Row) (bD bY bS bE : Bool) (c : PyDate) :
    (fillRowIf r bD bY bS bE c).descr = r.descr := by
  cases bD <;> cases bY <;> cases bS <;> cases bE <;> rfl

theorem fillRowIf_workHours (r : Row) (bD bY bS bE : Bool) (c : PyDate) :
    (fillRowIf r bD bY bS bE c).workHours = r.workHours := by
  cases bD <;> cases bY <;> cases bS <;> cases bE <;> rfl

theorem firstIdx_eq_none {x : String} {l : List String} (h : x ∉ l) :
    firstIdx x l = none := by
  induction l with
  | nil => rfl
  | cons y ys ih =>
    show (if y = x then some 0 else (firstIdx x ys).map (· + 1)) = none
    rw [if_neg (fun he => h (by rw [← he]; simp))]
    rw [ih (fun hm => h (by simp [hm]))]
    rfl

theorem goSpec_length (l : List String) (refD : PyDate) :
    ∀ df s, (goSpec df refD s l).length = df.length := by
  induction l with
  | nil => intro df s; rfl
  | cons rid rest ih =>
    intro df s
    show (goSpec (fill4 df rid (addDays refD s)) refD (s + 1) rest).length = _
    rw [ih, fill4_length]

/-- Master characterization of the autofill loop: its effect on row `j` is
`applyRowSpec`, evaluated entirely on the incoming grid. -/
theorem goSpec_nthRow (l : List String) (refD : PyDate) :
    ∀ df s j, l.Nodup → j < df.length →
      nthRow (goSpec df refD s l) j = applyRowSpec df l refD s (nthRow df j) := by
  induction l with
  | nil =>
    intro df s j _ h
    rfl
  | cons rid rest ih =>
    intro df s j hnd h
    have hnotin : rid ∉ rest := (List.nodup_cons.mp hnd).1
    have hndrest : rest.Nodup := (List.nodup_cons.mp hnd).2
    have hlen4 : j < (fill4 df rid (addDays refD s)).length := by
      rw [fill4_length]; exact h
    show nthRow (goSpec (fill4 df rid (addDays refD s)) refD (s + 1) rest) j = _
    rw [ih _ (s + 1) j hndrest hlen4]
    rw [fill4_nthRow df rid (addDays refD s) j h]
    cases hm : ((nthRow df j).rowId == rid) with
    | true =>
      have hprid : (nthRow df j).rowId = rid := eq_of_beq hm
      rw [if_pos rfl]
      unfold applyRowSpec
      rw [fillRowIf_rowId, hprid, firstIdx_eq_none hnotin]
      have hfi : firstIdx rid (rid :: rest) = some 0 := by
        show (if rid = rid then some 0 else (firstIdx rid rest).map (· + 1)) = some 0
        rw [if_pos rfl]
      rw [hfi]
      rfl
    | false =>
      have hprne : rid ≠ (nthRow df j).rowId := by
        intro he
        rw [← he] at hm
        simp at hm
      rw [if_neg (by simp)]
      unfold applyRowSpec
      have hfi : firstIdx (nthRow df j).rowId (rid :: rest) =
          (firstIdx (nthRow df j).rowId rest).map (· + 1) := by
        show (if rid = (nthRow df j).rowId then some 0 else _) = _
        rw [if_neg hprne]
      rw [hfi]
      cases hfr : firstIdx (nthRow df j).rowId rest with
      | none => rfl
      | some i =>
        simp only [Option.map_some']
        have hne2 : (nthRow df j).rowId ≠ rid := fun he => hprne he.symm
        rw [allBlankBy_fill4_ne Row.date df rid _ _ hne2,
          allBlankBy_fill4_ne Row.day df rid _ _ hne2,
          allBlankBy_fill4_ne Row.startTime df rid _ _ hne2,
          allBlankBy_fill4_ne Row.endTime df rid _ _ hne2]
        rw [show s + 1 + i = s + (i + 1) from by omega]

/-! ## Bridging the source loop to the position form -/

theorem autofillGo_succ_eq (l : List String) (refD : PyDate) :
    ∀ df k, autofillGo df refD (addDays refD k) (k + 1) l = goSpec df refD (k + 1) l := by
  induction l with
  | nil => intro df k; rfl
  | cons rid rest ih =>
    intro df k
    show autofillGo
      (fill4 df rid (if k + 1 = 0 then refD else pyDateSucc (addDays refD k))) refD
      (if k + 1 = 0 then refD else pyDateSucc (addDays refD k)) (k + 1 + 1) rest =
      goSpec (fill4 df rid (addDays refD (k + 1))) refD (k + 1 + 1) rest
    rw [if_neg (Nat.succ_ne_zero k)]
    exact ih (fill4 df rid (addDays refD (k + 1))) (k + 1)

theorem autofillGo_zero_eq (l : List String) (refD : PyDate) (df : List Row)
    (c : PyDate) : autofillGo df refD c 0 l = goSpec df refD 0 l := by
  cases l with
  | nil => rfl
  | cons rid rest =>
    show autofillGo (fill4 df rid (if 0 = 0 then refD else pyDateSucc c)) refD
      (if 0 = 0 then refD else pyDateSucc c) 1 rest =
      goSpec (fill4 df rid (addDays refD 0)) refD 1 rest
    rw [if_pos rfl]
    exact autofillGo_succ_eq rest refD (fill4 df rid refD) 0

theorem autofill_length (today : PyDate) (df : List Row) (l : List String) :
    (autofill_rows_by_ids today df l).length = df.length := by
  rw [autofill_rows_by_ids]
  split
  · rfl
  · rw [autofillGo_zero_eq, goSpec_length]

/-- `autofill_rows_by_ids`, row by row. -/
theorem autofill_nthRow (today : PyDate) (df : List Row) (l : List String)
    (hne : l ≠ []) (hnd : l.Nodup) (j : Nat) (h : j < df.length) :
    nthRow (autofill_rows_by_ids today df l) j =
      applyRowSpec df l (refDate today df l) 0 (nthRow df j) := by
  rw [autofill_rows_by_ids, if_neg hne, autofillGo_zero_eq,
    goSpec_nthRow l _ df 0 j hnd h]

/-! ## Values written by the defaulter are never blank -/

theorem padNat_ne_nil (w n : Nat) : padNat w n ≠ [] := by
  rw [padNat]
  intro h
  rcases List.append_eq_nil.mp h with ⟨_, h2⟩
  exact natDigits_ne_nil n h2

theorem padNat_no_space {w n : Nat} {c : Char} (h : c ∈ padNat w n) :
    isPySpace c = false := by
  rw [padNat] at h
  rcases List.mem_append.mp h with h1 | h2
  · rw [List.eq_of_mem_replicate h1]
    decide
  · exact natDigits_no_space h2

theorem blankStr_date_to_str (d : PyDate) : blankStr (date_to_str d) = false := by
  rw [blankStr, date_to_str]
  have hs : pyStrip (padNat 4 d.year ++ '-' :: (padNat 2 d.month ++ '-' :: padNat 2 d.day))
      = padNat 4 d.year ++ '-' :: (padNat 2 d.month ++ '-' :: padNat 2 d.day) := by
    apply pyStrip_eq_self
    intro c hc
    rcases List.mem_append.mp hc with h1 | h2
    · exact padNat_no_space h1
    · rcases List.mem_cons.mp h2 with rfl | h3
      · decide
      · rcases List.mem_append.mp h3 with h4 | h5
        · exact padNat_no_space h4
        · rcases List.mem_cons.mp h5 with rfl | h6
          · decide
          · exact padNat_no_space h6
  show (pyStrip (padNat 4 d.year ++ '-' :: (padNat 2 d.month ++ '-' :: padNat 2 d.day)) == []) = false
  rw [hs]
  apply beq_eq_false_iff_ne.mpr
  intro h
  rcases List.append_eq_nil.mp h with ⟨h1, _⟩
  exact padNat_ne_nil 4 d.year h1

theorem weekdayNum_lt (d : PyDate) : weekdayNum d < 7 := by
  unfold weekdayNum
  exact Nat.mod_lt _ (by omega)

theorem blankStr_weekday_abbr (d : PyDate) : blankStr (weekday_abbr d) = false := by
  rw [weekday_abbr]
  have hk := weekdayNum_lt d
  generalize weekdayNum d = k at hk
  interval_cases k <;> decide

/-! ## Generic Boolean list facts -/

theorem all_eq_false_of_mem {α : Type} {p : α → Bool} {l : List α} {x : α}
    (hx : x ∈ l) (hpx : p x = false) : l.all p = false := by
  cases hall : l.all p with
  | false => rfl
  | true => exact absurd (List.all_eq_true.mp hall x hx) (by simp [hpx])

theorem exists_of_all_eq_false {α : Type} {p : α → Bool} {l : List α}
    (h : l.all p = false) : ∃ x ∈ l, p x = false := by
  by_contra hc
  push_neg at hc
  have : l.all p = true := List.all_eq_true.mpr (fun x hx => by
    cases hpx : p x with
    | false => exact absurd hpx (hc x hx)
    | true => rfl)
  rw [this] at h
  exact absurd h (by simp)

/-! ## Second-run facts -/

theorem applyRowSpec_rowId (df : List Row) (l : List String) (refD : PyDate)
    (s : Nat) (r : Row) : (applyRowSpec df l refD s r).rowId = r.rowId := by
  unfold applyRowSpec
  cases hf : firstIdx r.rowId l with
  | none => rfl
  | some i => rw [fillRowIf_rowId]

/-- After one run, the guard of any identifier that occurs in the list and
has at least one row is false: either the run wrote a nonblank default into
every such row, or some such row already had a nonblank value that the run
preserved. -/
theorem allBlankBy_run2_false (g : Row → String) (df : List Row)
    (l : List String) (refD : PyDate) (rid : String) (r0 : Row) (hr0 : r0 ∈ df)
    (hrid : r0.rowId = rid) (w : String) (hw : blankStr w = false)
    (hg : ∀ r, r.rowId = rid →
      g (applyRowSpec df l refD 0 r) = if allBlankBy g df rid then w else g r) :
    allBlankBy g (df.map (applyRowSpec df l refD 0)) rid = false := by
  rw [allBlankBy]
  rw [filter_map_comm (fun r => by rw [applyRowSpec_rowId]), List.all_map]
  cases hb : allBlankBy g df rid with
  | true =>
    apply all_eq_false_of_mem (x := r0)
    · exact List.mem_filter.mpr ⟨hr0, by simp [hrid]⟩
    · show blankStr (g (applyRowSpec df l refD 0 r0)) = false
      rw [hg r0 hrid, hb, if_pos rfl]
      exact hw
  | false =>
    have hb2 : (df.filter (fun r => r.rowId == rid)).all
        (fun r => blankStr (g r)) = false := by
      rw [allBlankBy] at hb
      exact hb
    obtain ⟨r1, hr1mem, hr1⟩ := exists_of_all_eq_false hb2
    apply all_eq_false_of_mem (x := r1) hr1mem
    show blankStr (g (applyRowSpec df l refD 0 r1)) = false
    have hr1id : r1.rowId = rid := by simpa using (List.mem_filter.mp hr1mem).2
    rw [hg r1 hr1id, hb, if_neg (by simp)]
    exact hr1

/-! ## Autofill as a map, frame facts, idempotence -/

theorem nthRow_eq_get (df : List Row) (j : Nat) (h : j < df.length) :
    nthRow df j = df.get ⟨j, h⟩ := by
  rw [nthRow, List.getD_eq_getElem?_getD, List.getElem?_eq_getElem h]
  rfl

theorem autofill_eq_map (today : PyDate) (df : List Row) (l : List String)
    (hne : l ≠ []) (hnd : l.Nodup) :
    autofill_rows_by_ids today df l =
      df.map (applyRowSpec df l (refDate today df l) 0) := by
  apply List.ext_get
  · rw [autofill_length, List.length_map]
  · intro j h1 h2
    have hj : j < df.length := by rw [autofill_length] at h1; exact h1
    rw [← nthRow_eq_get _ _ h1, ← nthRow_eq_get _ _ h2,
      autofill_nthRow today df l hne hnd j hj,
      nthRow_map _ _ _ hj]

theorem applyRowSpec_of_not_mem (df : List Row) (l : List String)
    (refD : PyDate) (s : Nat) (r : Row) (h : r.rowId ∉ l) :
    applyRowSpec df l refD s r = r := by
  unfold applyRowSpec
  rw [firstIdx_eq_none h]

/-- Rows whose identifier is not in the list are a frame: the filter that
computes the anchor rows is unchanged by the run. -/
theorem autofill_filter_non_new (today : PyDate) (df : List Row)
    (l : List String) (hne : l ≠ []) (hnd : l.Nodup) :
    (autofill_rows_by_ids today df l).filter (fun r => !(l.contains r.rowId)) =
      df.filter (fun r => !(l.contains r.rowId)) := by
  rw [autofill_eq_map today df l hne hnd]
  rw [filter_map_comm (fun r => by rw [applyRowSpec_rowId])]
  apply map_id_on
  intro r hr
  apply applyRowSpec_of_not_mem
  have h2 := (List.mem_filter.mp hr).2
  simp at h2
  exact h2

theorem refDate_autofill (today : PyDate) (df : List Row) (l : List String)
    (hne : l ≠ []) (hnd : l.Nodup) :
    refDate today (autofill_rows_by_ids today df l) l = refDate today df l := by
  rw [refDate, refDate, autofill_filter_non_new today df l hne hnd]

/-- Reduction of `applyRowSpec` when the identifier occurs in the list. -/
theorem applyRowSpec_of_firstIdx_some (df : List Row) (l : List String)
    (refD : PyDate) (s : Nat) (r : Row) (i : Nat)
    (hf : firstIdx r.rowId l = some i) :
    applyRowSpec df l refD s r =
      fillRowIf r (allBlankBy Row.date df r.rowId) (allBlankBy Row.day df r.rowId)
        (allBlankBy Row.startTime df r.rowId) (allBlankBy Row.endTime df r.rowId)
        (addDays refD (s + i)) := by
  unfold applyRowSpec
  rw [hf]

/-- Second-run equations for the four columns of a row whose identifier
occurs in the list. -/
theorem applyRowSpec_date_eq (df : List Row) (l : List String) (refD : PyDate)
    (r : Row) (i : Nat) (hf : firstIdx r.rowId l = some i) :
    (applyRowSpec df l refD 0 r).date =
      if allBlankBy Row.date df r.rowId then date_to_str (addDays refD (0 + i))
      else r.date := by
  rw [applyRowSpec_of_firstIdx_some df l refD 0 r i hf, fillRowIf_date]

theorem applyRowSpec_day_eq (df : List Row) (l : List String) (refD : PyDate)
    (r : Row) (i : Nat) (hf : firstIdx r.rowId l = some i) :
    (applyRowSpec df l refD 0 r).day =
      if allBlankBy Row.day df r.rowId then weekday_abbr (addDays refD (0 + i))
      else r.day := by
  rw [applyRowSpec_of_firstIdx_some df l refD 0 r i hf, fillRowIf_day]

theorem applyRowSpec_startTime_eq (df : List Row) (l : List String)
    (refD : PyDate) (r : Row) (i : Nat) (hf : firstIdx r.rowId l = some i) :
    (applyRowSpec df l refD 0 r).startTime =
      if allBlankBy Row.startTime df r.rowId then "09:00" else r.startTime := by
  rw [applyRowSpec_of_firstIdx_some df l refD 0 r i hf, fillRowIf_startTime]

theorem applyRowSpec_endTime_eq (df : List Row) (l : List String)
    (refD : PyDate) (r : Row) (i : Nat) (hf : firstIdx r.rowId l = some i) :
    (applyRowSpec df l refD 0 r).endTime =
      if allBlankBy Row.endTime df r.rowId then "18:00" else r.endTime := by
  rw [applyRowSpec_of_firstIdx_some df l refD 0 r i hf, fillRowIf_endTime]

theorem fillRowIf_false (r : Row) (c : PyDate) :
    fillRowIf r false false false false c = r := rfl


theorem firstIdx_eq_none_iff {x : String} {l : List String} :
    firstIdx x l = none ↔ x ∉ l := by
  induction l with
  | nil => simp [firstIdx]
  | cons y ys ih =>
    show (if y = x then some 0 else (firstIdx x ys).map (· + 1)) = none ↔ _
    by_cases hy : y = x
    · rw [if_pos hy]
      simp [hy]
    · rw [if_neg hy]
      simp only [Option.map_eq_none', List.mem_cons]
      rw [ih]
      constructor
      · intro h hc
        rcases hc with he | hm
        · exact hy he.symm
        · exact h hm
      · intro h hm
        exact h (Or.inr hm)

/-- Running the defaulter a second time on its own output, with the same
identifier list and the same ambient day, changes nothing. -/
theorem autofill_idempotent (today : PyDate) (df : List Row) (l : List String)
    (hnd : l.Nodup) :
    autofill_rows_by_ids today (autofill_rows_by_ids today df l) l =
      autofill_rows_by_ids today df l := by
  by_cases hne : l = []
  · subst hne
    rw [autofill_rows_by_ids, if_pos rfl]
  · rw [autofill_eq_map today (autofill_rows_by_ids today df l) l hne hnd,
      refDate_autofill today df l hne hnd,
      autofill_eq_map today df l hne hnd, List.map_map]
    apply List.map_congr_left
    intro r hr
    show applyRowSpec (List.map (applyRowSpec df l (refDate today df l) 0) df) l
        (refDate today df l) 0 (applyRowSpec df l (refDate today df l) 0 r) =
      applyRowSpec df l (refDate today df l) 0 r
    cases hf : firstIdx r.rowId l with
    | none =>
      have hnm : r.rowId ∉ l := firstIdx_eq_none_iff.mp hf
      rw [applyRowSpec_of_not_mem df l _ 0 r hnm,
        applyRowSpec_of_not_mem _ l _ 0 r hnm]
    | some i =>
      have hD2 := allBlankBy_run2_false Row.date df l (refDate today df l)
        r.rowId r hr rfl (date_to_str (addDays (refDate today df l) (0 + i)))
        (blankStr_date_to_str _)
        (fun r2 hr2 => by
          rw [← hr2] at hf ⊢
          exact applyRowSpec_date_eq df l _ r2 i hf)
      have hY2 := allBlankBy_run2_false Row.day df l (refDate today df l)
        r.rowId r hr rfl (weekday_abbr (addDays (refDate today df l) (0 + i)))
        (blankStr_weekday_abbr _)
        (fun r2 hr2 => by
          rw [← hr2] at hf ⊢
          exact applyRowSpec_day_eq df l _ r2 i hf)
      have hS2 := allBlankBy_run2_false Row.startTime df l (refDate today df l)
        r.rowId r hr rfl "09:00" (by decide)
        (fun r2 hr2 => by
          rw [← hr2] at hf ⊢
          exact applyRowSpec_startTime_eq df l _ r2 i hf)
      have hE2 := allBlankBy_run2_false Row.endTime df l (refDate today df l)
        r.rowId r hr rfl "18:00" (by decide)
        (fun r2 hr2 => by
          rw [← hr2] at hf ⊢
          exact applyRowSpec_endTime_eq df l _ r2 i hf)
      rw [applyRowSpec_of_firstIdx_some df l _ 0 r i hf]
      rw [applyRowSpec_of_firstIdx_some _ l _ 0 _ i (by rw [fillRowIf_rowId]; exact hf)]
      rw [fillRowIf_rowId, hD2, hY2, hS2, hE2, fillRowIf_false]

/-! ## Recalculation lemmas -/

theorem recalc_go_length (df : List Row) : (recalc_go df).1.length = df.length := by
  induction df with
  | nil => rfl
  | cons r rs ih =>
    show (recalc_go rs).1.length + 1 = rs.length + 1
    rw [ih]

theorem recalc_go_nthRow (df : List Row) (j : Nat) (h : j < df.length) :
    nthRow (recalc_go df).1 j =
      { nthRow df j with
        workHours := calc_row_hours (hhmm_or_blank (nthRow df j).startTime)
          (hhmm_or_blank (nthRow df j).endTime) (nthRow df j).brk } := by
  induction df generalizing j with
  | nil => simp at h
  | cons r rs ih =>
    cases j with
    | zero => rfl
    | succ k =>
      have hk : k < rs.length := by simpa using h
      show nthRow (recalc_go rs).1 k = _
      exact ih k hk

theorem recalc_go_total (df : List Row) :
    (recalc_go df).2 = ((recalc_go df).1.map Row.workHours).sum := by
  induction df with
  | nil => rfl
  | cons r rs ih =>
    show calc_row_hours (hhmm_or_blank r.startTime) (hhmm_or_blank r.endTime) r.brk
        + (recalc_go rs).2 = _
    rw [ih]
    rfl

/-! ## Identifier-assignment lemmas -/

theorem ensure_row_ids_from_length (supply : Nat → String) :
    ∀ df k, (ensure_row_ids_from supply k df).length = df.length := by
  intro df
  induction df with
  | nil => intro k; rfl
  | cons r rs ih =>
    intro k
    show (ensure_row_ids_from supply k (r :: rs)).length = rs.length + 1
    rw [ensure_row_ids_from]
    by_cases hb : blankStr r.rowId = true
    · rw [if_pos hb, List.length_cons, ih]
    · rw [if_neg hb, List.length_cons, ih]

theorem blanksBefore_zero (df : List Row) : blanksBefore df 0 = 0 := by
  rw [blanksBefore, List.take_zero]
  rfl

theorem blanksBefore_cons (r : Row) (rs : List Row) (j : Nat) :
    blanksBefore (r :: rs) (j + 1) =
      (if blankStr r.rowId then 1 else 0) + blanksBefore rs j := by
  rw [blanksBefore, blanksBefore, List.take_succ_cons, List.filter_cons]
  by_cases hb : blankStr r.rowId = true
  · rw [if_pos hb, if_pos hb, List.length_cons]
    omega
  · rw [if_neg hb, if_neg hb]
    omega

theorem ensure_row_ids_from_nthRow (supply : Nat → String) :
    ∀ df k j, j < df.length →
      nthRow (ensure_row_ids_from supply k df) j =
        (if blankStr (nthRow df j).rowId then
          { nthRow df j with rowId := supply (k + blanksBefore df j) }
        else nthRow df j) := by
  intro df
  induction df with
  | nil =>
    intro k j h
    simp at h
  | cons r rs ih =>
    intro k j h
    rw [ensure_row_ids_from]
    cases j with
    | zero =>
      rw [blanksBefore_zero, Nat.add_zero]
      by_cases hb : blankStr r.rowId = true
      · rw [if_pos hb]
        show { r with rowId := supply k } = _
        rw [show nthRow (r :: rs) 0 = r from rfl, if_pos hb]
        rfl
      · rw [if_neg hb]
        show r = _
        rw [show nthRow (r :: rs) 0 = r from rfl, if_neg hb]
    | succ j2 =>
      have hj2 : j2 < rs.length := by simpa using h
      rw [show nthRow (r :: rs) (j2 + 1) = nthRow rs j2 from rfl, blanksBefore_cons]
      by_cases hb : blankStr r.rowId = true
      · rw [if_pos hb, if_pos hb]
        show nthRow (ensure_row_ids_from supply (k + 1) rs) j2 = _
        rw [ih (k + 1) j2 hj2]
        rw [show k + (1 + blanksBefore rs j2) = k + 1 + blanksBefore rs j2 from by omega]
      · rw [if_neg hb, if_neg hb]
        show nthRow (ensure_row_ids_from supply k rs) j2 = _
        rw [ih k j2 hj2]
        rw [show k + (0 + blanksBefore rs j2) = k + blanksBefore rs j2 from by omega]

theorem ensure_row_ids_from_nonblank (supply : Nat → String)
    (hs : ∀ n, blankStr (supply n) = false) :
    ∀ df k r, r ∈ ensure_row_ids_from supply k df → blankStr r.rowId = false := by
  intro df
  induction df with
  | nil =>
    intro k r h
    simp [ensure_row_ids_from] at h
  | cons r0 rs ih =>
    intro k r h
    rw [ensure_row_ids_from] at h
    by_cases hb : blankStr r0.rowId = true
    · rw [if_pos hb] at h
      rcases List.mem_cons.mp h with rfl | hm
      · exact hs k
      · exact ih (k + 1) r hm
    · rw [if_neg hb] at h
      rcases List.mem_cons.mp h with rfl | hm
      · cases hbb : blankStr r.rowId
        · rfl
        · exact absurd hbb hb
      · exact ih k r hm

/-! ## Unique-identifier helpers -/

theorem getD_eq_get_str (l : List String) (i : Nat) (hi : i < l.length) :
    l.getD i "" = l.get ⟨i, hi⟩ := by
  rw [List.getD_eq_getElem?_getD, List.getElem?_eq_getElem hi]
  rfl

theorem firstIdx_get_of_nodup (l : List String) (hnd : l.Nodup) (i : Nat)
    (hi : i < l.length) : firstIdx (l.get ⟨i, hi⟩) l = some i := by
  induction l generalizing i with
  | nil => simp at hi
  | cons y ys ih =>
    cases i with
    | zero =>
      show (if y = y then some 0 else _) = some 0
      rw [if_pos rfl]
    | succ k =>
      have hk : k < ys.length := by simpa using hi
      have hy : y ≠ ys.get ⟨k, hk⟩ := by
        intro he
        have hmem : y ∈ ys := by
          rw [he]
          exact List.get_mem ys k hk
        exact (List.nodup_cons.mp hnd).1 hmem
      show (if y = ys.get ⟨k, hk⟩ then some 0 else
        (firstIdx (ys.get ⟨k, hk⟩) ys).map (· + 1)) = some (k + 1)
      rw [if_neg hy, ih (List.nodup_cons.mp hnd).2 k hk]
      rfl

theorem filter_rowId_singleton (df : List Row)
    (hids : (df.map Row.rowId).Nodup) :
    ∀ j, j < df.length →
      df.filter (fun r => r.rowId == (nthRow df j).rowId) = [nthRow df j] := by
  induction df with
  | nil =>
    intro j h
    simp at h
  | cons r rs ih =>
    intro j h
    have hmc := hids
    rw [List.map_cons] at hmc
    have hnd1 : r.rowId ∉ rs.map Row.rowId := (List.nodup_cons.mp hmc).1
    have hnd2 : (rs.map Row.rowId).Nodup := (List.nodup_cons.mp hmc).2
    cases j with
    | zero =>
      show List.filter (fun r2 => r2.rowId == r.rowId) (r :: rs) = [r]
      rw [List.filter_cons, if_pos (by simp)]
      have hnil : List.filter (fun r2 => r2.rowId == r.rowId) rs = [] := by
        apply List.filter_eq_nil_iff.mpr
        intro a ha hpa
        apply hnd1
        have : a.rowId = r.rowId := by simpa using hpa
        rw [← this]
        exact List.mem_map_of_mem Row.rowId ha
      rw [hnil]
    | succ k =>
      have hk : k < rs.length := by simpa using h
      show List.filter (fun r2 => r2.rowId == (nthRow rs k).rowId) (r :: rs)
        = [nthRow rs k]
      rw [List.filter_cons, if_neg ?hcne, ih hnd2 k hk]
      case hcne =>
        simp only [beq_iff_eq, decide_eq_true_eq]
        intro he
        apply hnd1
        rw [he]
        exact List.mem_map_of_mem Row.rowId (nthRow_mem rs k hk)

theorem allBlankBy_of_unique (g : Row → String) (df : List Row)
    (hids : (df.map Row.rowId).Nodup) (j : Nat) (h : j < df.length) :
    allBlankBy g df (nthRow df j).rowId = blankStr (g (nthRow df j)) := by
  rw [allBlankBy, filter_rowId_singleton df hids j h]
  simp [List.all_cons]

/-! ## Claim theorems -/

/-- C1: the claim describes `detect_new_ids` returning exactly the set of
identifiers present in the current grid and absent from the previous one.
That is the evident intent, but the function as written never returns:
`old_df.get("Row ID") or []` evaluates `bool(Series)`, which pandas raises
on unconditionally, so the call raises `ValueError` for every pair of
grids (first conjunct).  With the `or []` slip removed
(`detect_new_ids_fixed`) the returned identifiers are exactly the claimed
set difference for all grids (second conjunct), and on the grid R1..R5
with R3 deleted and N1, N2 inserted mid-sequence the result is exactly
the two new identifiers (third conjunct). -/
theorem detect_new_ids_raises_but_fixed_is_diff :
    (∀ old_df new_df : List Row,
      detect_new_ids old_df new_df = Except.error PandasError.truthValueAmbiguous)
  ∧ (∀ old_df new_df : List Row, ∀ rid : String,
      rid ∈ detect_new_ids_fixed old_df new_df ↔
        (rid ∈ new_df.map Row.rowId ∧ rid ∉ old_df.map Row.rowId))
  ∧ detect_new_ids_fixed c1Old c1New = ["N1", "N2"] := by
  refine ⟨fun _ _ => rfl, ?_, by decide⟩
  intro old_df new_df rid
  rw [detect_new_ids_fixed]
  simp [List.mem_filter, List.contains]

/-- C6: when both start and end text parse as times of day,
`calc_row_hours` returns the single-midnight-wrap duration formula rounded
to 2 decimals: max(0, m)/60 minus the parsed break, floored at 0, where
m adds 1440 minutes exactly once when end precedes start. -/
theorem calc_row_hours_formula (s e b : String) (st en : PyTime)
    (hs : to_time_obj s = some st) (he2 : to_time_obj e = some en) :
    calc_row_hours s e b =
      round2 (pyMax 0
        (((pyMaxI 0
          ((if en.hour * 60 + en.minute < st.hour * 60 + st.minute then
              en.hour * 60 + en.minute + 24 * 60
            else en.hour * 60 + en.minute) - (st.hour * 60 + st.minute)) : ℚ)) / 60
          - parse_break_to_hours b)) := by
  unfold calc_row_hours
  rw [hs, he2]

/-- C6 witness: the overnight case 22:00 to 06:00 with no break is 8.0. -/
theorem calc_row_hours_formula_witness :
    calc_row_hours "22:00" "06:00" "00:00" = 8 :=
  (calc_row_hours_formula "22:00" "06:00" "00:00" ⟨22, 0⟩ ⟨6, 0⟩
    (by decide) (by decide)).trans (by with_unfolding_all decide)

/-- C7: when the start or the end text fails to parse as a time of day,
`calc_row_hours` returns 0 (and, being a total function of the embedding,
raises nothing); parse failure degrades to the default. -/
theorem calc_row_hours_unparseable (s e b : String)
    (h : to_time_obj s = none ∨ to_time_obj e = none) :
    calc_row_hours s e b = 0 := by
  unfold calc_row_hours
  rcases h with h | h
  · rw [h]
  · rw [h]
    cases to_time_obj s <;> rfl

/-- C7 witness: the out-of-range text 99:99 gives 0.0. -/
theorem calc_row_hours_unparseable_witness :
    calc_row_hours "99:99" "18:00" "00:30" = 0 :=
  calc_row_hours_unparseable "99:99" "18:00" "00:30" (Or.inl (by decide))

/-- C2 counterexample: grid `c2Grid` has the anchor row r0 dated
2024-01-10 and the new rows a then b in display order.  The source
iterates over a Python set, whose order is unspecified; processing the
identifiers in the order b, a gives the row a — first in display order —
the reference date plus one day instead of the reference date, refuting
the display-order wording of the claim. -/
theorem autofill_display_order_counterexample :
    refDate c2Today c2Grid ["b", "a"] = ⟨2024, 1, 10⟩
  ∧ (rowById (autofill_rows_by_ids c2Today c2Grid ["b", "a"]) "a").date
      = "2024-01-11"
  ∧ (rowById (autofill_rows_by_ids c2Today c2Grid ["b", "a"]) "b").date
      = "2024-01-10"
  ∧ ¬((rowById (autofill_rows_by_ids c2Today c2Grid ["b", "a"]) "a").date
      = date_to_str (refDate c2Today c2Grid ["b", "a"])) := by
  with_unfolding_all decide

/-- C2 (amended): the reference date is the most recent parseable date of
the rows whose identifier is not in the processed list, scanned in reverse
display order, today if none; and for unique row identifiers the row whose
identifier sits at position i of the processed list (an arbitrary
iteration order of the set, not display order) gets candidate date
reference + i days: the blank ones of its date, day, start, end receive
the defaults, every non-blank field and the other columns are unchanged. -/
theorem autofill_positional (today : PyDate) (df : List Row) (l : List String)
    (hne : l ≠ []) (hnd : l.Nodup) (hids : (df.map Row.rowId).Nodup)
    (i j : Nat) (hi : i < l.length) (hj : j < df.length)
    (hmatch : (nthRow df j).rowId = l.getD i "") :
    ((nthRow (autofill_rows_by_ids today df l) j).date =
      if blankStr (nthRow df j).date then
        date_to_str (addDays (refDate today df l) i)
      else (nthRow df j).date)
  ∧ ((nthRow (autofill_rows_by_ids today df l) j).day =
      if blankStr (nthRow df j).day then
        weekday_abbr (addDays (refDate today df l) i)
      else (nthRow df j).day)
  ∧ ((nthRow (autofill_rows_by_ids today df l) j).startTime =
      if blankStr (nthRow df j).startTime then "09:00"
      else (nthRow df j).startTime)
  ∧ ((nthRow (autofill_rows_by_ids today df l) j).endTime =
      if blankStr (nthRow df j).endTime then "18:00"
      else (nthRow df j).endTime)
  ∧ (nthRow (autofill_rows_by_ids today df l) j).rowId = (nthRow df j).rowId
  ∧ (nthRow (autofill_rows_by_ids today df l) j).brk = (nthRow df j).brk
  ∧ (nthRow (autofill_rows_by_ids today df l) j).workHours
      = (nthRow df j).workHours
  ∧ (nthRow (autofill_rows_by_ids today df l) j).descr = (nthRow df j).descr := by
  have hf : firstIdx (nthRow df j).rowId l = some i := by
    rw [hmatch, getD_eq_get_str l i hi]
    exact firstIdx_get_of_nodup l hnd i hi
  have hmain := autofill_nthRow today df l hne hnd j hj
  refine ⟨?_, ?_, ?_, ?_, ?_, ?_, ?_, ?_⟩
  · rw [hmain, applyRowSpec_date_eq df l _ (nthRow df j) i hf,
      allBlankBy_of_unique Row.date df hids j hj, Nat.zero_add]
  · rw [hmain, applyRowSpec_day_eq df l _ (nthRow df j) i hf,
      allBlankBy_of_unique Row.day df hids j hj, Nat.zero_add]
  · rw [hmain, applyRowSpec_startTime_eq df l _ (nthRow df j) i hf,
      allBlankBy_of_unique Row.startTime df hids j hj]
  · rw [hmain, applyRowSpec_endTime_eq df l _ (nthRow df j) i hf,
      allBlankBy_of_unique Row.endTime df hids j hj]
  · rw [hmain, applyRowSpec_rowId]
  · rw [hmain, applyRowSpec_of_firstIdx_some df l _ 0 (nthRow df j) i hf,
      fillRowIf_brk]
  · rw [hmain, applyRowSpec_of_firstIdx_some df l _ 0 (nthRow df j) i hf,
      fillRowIf_workHours]
  · rw [hmain, applyRowSpec_of_firstIdx_some df l _ 0 (nthRow df j) i hf,
      fillRowIf_descr]

/-- C2 witness: on the counterexample grid, the row at position 1 of the
processed order b, a — the row a — receives the reference date plus 1. -/
theorem autofill_positional_witness :
    (nthRow (autofill_rows_by_ids c2Today c2Grid ["b", "a"]) 1).date
      = "2024-01-11" :=
  ((autofill_positional c2Today c2Grid ["b", "a"] (by decide) (by decide)
      (by decide) 1 1 (by decide) (by decide) (by decide)).1).trans
    (by with_unfolding_all decide)

/-- C3 counterexample: appending n1, n2, n3 to a grid whose last dated row
is 2024-01-10 and defaulting them (under the stated order n1, n2, n3)
dates them 2024-01-10, 2024-01-11, 2024-01-12 — the first new row gets the
reference date itself, not the day after — so the claimed dates 11/12/13
are not produced, and no row ever carries 2024-01-13. -/
theorem reconcile_dates_counterexample :
    detect_new_ids_fixed c3Before c3After = ["n1", "n2", "n3"]
  ∧ (rowById (autofill_rows_by_ids c3Today c3After ["n1", "n2", "n3"]) "n1").date
      = "2024-01-10"
  ∧ ¬((rowById (autofill_rows_by_ids c3Today c3After ["n1", "n2", "n3"]) "n1").date
        = "2024-01-11"
    ∧ (rowById (autofill_rows_by_ids c3Today c3After ["n1", "n2", "n3"]) "n2").date
        = "2024-01-12"
    ∧ (rowById (autofill_rows_by_ids c3Today c3After ["n1", "n2", "n3"]) "n3").date
        = "2024-01-13")
  ∧ ((autofill_rows_by_ids c3Today c3After ["n1", "n2", "n3"]).filter
      (fun r => r.date == "2024-01-13")).isEmpty = true := by
  with_unfolding_all decide

/-- C3 (amended): the module-level reconciliation as written raises before
defaulting (`detect_new_ids` always errors); with the diff repaired, the
three appended rows are dated 2024-01-10, 2024-01-11, 2024-01-12 by
position in the processed order — under every one of the six possible
orders of the identifier set — each with the weekday abbreviation of its
date and the default start 09:00 and end 18:00, and 2024-01-13 never
appears. -/
theorem reconcile_dates_amended :
    detect_new_ids c3Before c3After = Except.error PandasError.truthValueAmbiguous
  ∧ detect_new_ids_fixed c3Before c3After = ["n1", "n2", "n3"]
  ∧ (perms3 "n1" "n2" "n3").all c3Check = true :=
  ⟨rfl, by with_unfolding_all decide, by with_unfolding_all decide⟩

theorem allBlankBy_false_of_row (g : Row → String) (df : List Row) (j : Nat)
    (hj : j < df.length) (hb : blankStr (g (nthRow df j)) = false) :
    allBlankBy g df (nthRow df j).rowId = false := by
  rw [allBlankBy]
  exact all_eq_false_of_mem
    (List.mem_filter.mpr ⟨nthRow_mem df j hj, by simp⟩) hb

/-- C4: the defaulter is idempotent — a second run on its own output with
the same identifier list changes nothing — and non-destructive: any date,
day, start or end that is non-blank before a run (parseable or not) is
unchanged by the run, hence by any number of runs. -/
theorem autofill_idem_and_nondestructive (today : PyDate) (df : List Row)
    (l : List String) (hnd : l.Nodup) :
    autofill_rows_by_ids today (autofill_rows_by_ids today df l) l =
      autofill_rows_by_ids today df l
  ∧ (∀ j, j < df.length →
      (blankStr (nthRow df j).date = false →
        (nthRow (autofill_rows_by_ids today df l) j).date = (nthRow df j).date)
    ∧ (blankStr (nthRow df j).day = false →
        (nthRow (autofill_rows_by_ids today df l) j).day = (nthRow df j).day)
    ∧ (blankStr (nthRow df j).startTime = false →
        (nthRow (autofill_rows_by_ids today df l) j).startTime =
          (nthRow df j).startTime)
    ∧ (blankStr (nthRow df j).endTime = false →
        (nthRow (autofill_rows_by_ids today df l) j).endTime =
          (nthRow df j).endTime)) := by
  refine ⟨autofill_idempotent today df l hnd, ?_⟩
  intro j hj
  by_cases hne : l = []
  · subst hne
    rw [show autofill_rows_by_ids today df [] = df from rfl]
    exact ⟨fun _ => rfl, fun _ => rfl, fun _ => rfl, fun _ => rfl⟩
  · have hmain := autofill_nthRow today df l hne hnd j hj
    cases hf : firstIdx (nthRow df j).rowId l with
    | none =>
      rw [hmain, applyRowSpec_of_not_mem df l _ 0 _ (firstIdx_eq_none_iff.mp hf)]
      exact ⟨fun _ => rfl, fun _ => rfl, fun _ => rfl, fun _ => rfl⟩
    | some i =>
      refine ⟨?_, ?_, ?_, ?_⟩
      · intro hb
        rw [hmain, applyRowSpec_date_eq df l _ (nthRow df j) i hf,
          allBlankBy_false_of_row Row.date df j hj hb]
        simp
      · intro hb
        rw [hmain, applyRowSpec_day_eq df l _ (nthRow df j) i hf,
          allBlankBy_false_of_row Row.day df j hj hb]
        simp
      · intro hb
        rw [hmain, applyRowSpec_startTime_eq df l _ (nthRow df j) i hf,
          allBlankBy_false_of_row Row.startTime df j hj hb]
        simp
      · intro hb
        rw [hmain, applyRowSpec_endTime_eq df l _ (nthRow df j) i hf,
          allBlankBy_false_of_row Row.endTime df j hj hb]
        simp

/-- C4 witness: on the grid with a row x holding the unparseable date abcd
and the pre-set start 07:30, defaulting the blank row y twice is the same
as once, and the values of x survive. -/
theorem autofill_idem_and_nondestructive_witness :
    (autofill_rows_by_ids c3Today (autofill_rows_by_ids c3Today c4Grid ["y"])
        ["y"] = autofill_rows_by_ids c3Today c4Grid ["y"])
  ∧ (nthRow (autofill_rows_by_ids c3Today c4Grid ["y"]) 1).date = "abcd"
  ∧ (nthRow (autofill_rows_by_ids c3Today c4Grid ["y"]) 1).startTime
      = "07:30" := by
  have h := autofill_idem_and_nondestructive c3Today c4Grid ["y"] (by decide)
  refine ⟨h.1, ?_, ?_⟩
  · exact ((h.2 1 (by decide)).1 (by decide)).trans (by with_unfolding_all decide)
  · exact ((h.2 1 (by decide)).2.2.1 (by decide)).trans
      (by with_unfolding_all decide)

theorem calc_row_hours_hhmm (s e b : String) :
    calc_row_hours (hhmm_or_blank s) (hhmm_or_blank e) b
      = calc_row_hours s e b := by
  unfold calc_row_hours
  rw [to_time_obj_hhmm, to_time_obj_hhmm]

/-- C5: after the hour recomputation of a reconciliation pass, every row
of the resulting grid — changed or not — carries workHours equal to the
duration calculator applied to that row its own current start, end and
break texts, and the reported total is the sum of the workHours column
rounded to 2 decimals. -/
theorem recalc_hours_invariant (df : List Row) :
    (∀ j, j < df.length →
      (nthRow (recalc_hours df).1 j).workHours =
        calc_row_hours (nthRow (recalc_hours df).1 j).startTime
          (nthRow (recalc_hours df).1 j).endTime
          (nthRow (recalc_hours df).1 j).brk)
  ∧ (recalc_hours df).2 = round2 (((recalc_hours df).1.map Row.workHours).sum) := by
  constructor
  · intro j hj
    have h1 : nthRow (recalc_hours df).1 j = { nthRow df j with
        workHours := calc_row_hours (hhmm_or_blank (nthRow df j).startTime)
          (hhmm_or_blank (nthRow df j).endTime) (nthRow df j).brk } :=
      recalc_go_nthRow df j hj
    rw [h1]
    exact calc_row_hours_hhmm (nthRow df j).startTime (nthRow df j).endTime
      (nthRow df j).brk
  · show round2 (recalc_go df).2
      = round2 (((recalc_go df).1.map Row.workHours).sum)
    rw [recalc_go_total]

/-- C5 witness: the invariant instantiated on the one-row grid c5Grid. -/
theorem recalc_hours_invariant_witness :
    (nthRow (recalc_hours c5Grid).1 0).workHours =
      calc_row_hours (nthRow (recalc_hours c5Grid).1 0).startTime
        (nthRow (recalc_hours c5Grid).1 0).endTime
        (nthRow (recalc_hours c5Grid).1 0).brk :=
  (recalc_hours_invariant c5Grid).1 0 (by decide)

/-- C8: for a supply of non-blank fresh identifiers, the identity pass
keeps the length, leaves every row with a non-blank identifier untouched,
gives each blank-identifier row the next fresh identifier, and afterwards
every row of the grid has a non-blank identifier. -/
theorem ensure_row_ids_spec (supply : Nat → String) (df : List Row)
    (hs : ∀ n, blankStr (supply n) = false) :
    (ensure_row_ids supply df).length = df.length
  ∧ (∀ j, j < df.length →
      nthRow (ensure_row_ids supply df) j =
        (if blankStr (nthRow df j).rowId then
          { nthRow df j with rowId := supply (blanksBefore df j) }
        else nthRow df j))
  ∧ (∀ r, r ∈ ensure_row_ids supply df → blankStr r.rowId = false) := by
  refine ⟨ensure_row_ids_from_length supply df 0, ?_, ?_⟩
  · intro j hj
    rw [ensure_row_ids, ensure_row_ids_from_nthRow supply df 0 j hj, Nat.zero_add]
  · intro r hr
    exact ensure_row_ids_from_nonblank supply hs df 0 r hr

/-- C8 witness: on c8Grid the row keep is unchanged, the blank-identifier
row gets the first fresh identifier, and its identifier is non-blank. -/
theorem ensure_row_ids_spec_witness :
    nthRow (ensure_row_ids c8Supply c8Grid) 0 = nthRow c8Grid 0
  ∧ nthRow (ensure_row_ids c8Supply c8Grid) 1 =
      { nthRow c8Grid 1 with rowId := c8Supply 0 }
  ∧ blankStr (nthRow (ensure_row_ids c8Supply c8Grid) 1).rowId = false := by
  have h := ensure_row_ids_spec c8Supply c8Grid (fun n => rfl)
  refine ⟨?_, ?_, ?_⟩
  · exact (h.2.1 0 (by decide)).trans (by with_unfolding_all decide)
  · exact (h.2.1 1 (by decide)).trans (by with_unfolding_all decide)
  · exact h.2.2 _ (nthRow_mem _ 1 (by rw [h.1]; decide))

/-- C9 counterexample: the source merge takes no overwrite flag and never
replaces a non-blank field: with the existing IC value X and the directory
value Y, the specification merge at overwrite true yields Y while the
source merge keeps X, so the two disagree. -/
theorem merge_overwrite_counterexample :
    (mergeInto_spec c9Emp c9Entry true).ic = "Y"
  ∧ (mergeEmployee c9Emp c9Entry).ic = "X"
  ∧ mergeEmployee c9Emp c9Entry ≠ mergeInto_spec c9Emp c9Entry true := by
  with_unfolding_all decide

/-- C9 (amended): the source merge coincides, for every record and
directory entry, with the specification merge fixed at overwrite false:
each of the four secondary fields is replaced exactly when its current
value strips to blank. -/
theorem mergeEmployee_eq_spec_false (emp : EmployeeInfo) (entry : MasterEntry) :
    mergeEmployee emp entry = mergeInto_spec emp entry false := by
  unfold mergeEmployee mergeInto_spec
  by_cases h1 : blankStr emp.ic <;> by_cases h2 : blankStr emp.department <;>
    by_cases h3 : blankStr emp.jobTitle <;>
    by_cases h4 : blankStr emp.reportingManager <;>
    simp [h1, h2, h3, h4]

/-- C10: the hour recomputation is a frame on every column but workHours:
the grid keeps its length and every other field of every row — identifier,
date, day, start, end, break, description — is returned unchanged. -/
theorem recalc_hours_frame (df : List Row) :
    (recalc_hours df).1.length = df.length
  ∧ (∀ j, j < df.length →
      (nthRow (recalc_hours df).1 j).rowId = (nthRow df j).rowId
    ∧ (nthRow (recalc_hours df).1 j).date = (nthRow df j).date
    ∧ (nthRow (recalc_hours df).1 j).day = (nthRow df j).day
    ∧ (nthRow (recalc_hours df).1 j).startTime = (nthRow df j).startTime
    ∧ (nthRow (recalc_hours df).1 j).endTime = (nthRow df j).endTime
    ∧ (nthRow (recalc_hours df).1 j).brk = (nthRow df j).brk
    ∧ (nthRow (recalc_hours df).1 j).descr = (nthRow df j).descr) := by
  refine ⟨recalc_go_length df, ?_⟩
  intro j hj
  have h1 : nthRow (recalc_hours df).1 j = { nthRow df j with
      workHours := calc_row_hours (hhmm_or_blank (nthRow df j).startTime)
        (hhmm_or_blank (nthRow df j).endTime) (nthRow df j).brk } :=
    recalc_go_nthRow df j hj
  rw [h1]
  exact ⟨rfl, rfl, rfl, rfl, rfl, rfl, rfl⟩

/-- C10 witness: the frame instantiated on the one-row grid c5Grid. -/
theorem recalc_hours_frame_witness :
    (nthRow (recalc_hours c5Grid).1 0).startTime = (nthRow c5Grid 0).startTime :=
  ((recalc_hours_frame c5Grid).2 0 (by decide)).2.2.2.1
